import Mathlib

/-!
Shallow embedding of the claroty/access_parser repository (a read-only
parser for Microsoft Access MDB/ACCDB database images) and verification
of a list of claims about it.

Byte strings are modelled as `List Nat` (each element a byte value),
Python runtime errors as an explicit `PyErr` error monad, and Python
values stored in parsed tables as the inductive `PyValue`.  Construct
grammars from parsing_primitives.py are modelled as monadic readers over
a byte stream; failures that the Python code raises (KeyError,
IndexError, struct.error, ...) are modelled as `Except.error`.
-/

abbrev Bytes := List Nat

inductive PyErr where
  | constructError
  | keyError
  | attributeError
  | typeError
  | structError
  | indexError
  | valueError
  | overflowError
  | unicodeDecodeError
  | notValidDb
  | nonTermination
  deriving DecidableEq, Repr

instance {ε α : Type} [DecidableEq ε] [DecidableEq α] : DecidableEq (Except ε α)
  | .error a, .error b =>
    if h : a = b then isTrue (by rw [h]) else isFalse (fun e => by cases e; exact h rfl)
  | .error _, .ok _ => isFalse (fun h => by cases h)
  | .ok _, .error _ => isFalse (fun h => by cases h)
  | .ok a, .ok b =>
    if h : a = b then isTrue (by rw [h]) else isFalse (fun e => by cases e; exact h rfl)

/-- Python slice-bound resolution: for a sequence of length `len`, a slice
bound `i` (possibly negative) is clamped into `[0, len]`. -/
def pyBound (len : Nat) (i : Int) : Nat :=
  if i < 0 then ((len : Int) + i).toNat else min i.toNat len

/-- Python `l[a:b]`. -/
def pySlice (l : List α) (a b : Int) : List α :=
  (l.take (pyBound l.length b)).drop (pyBound l.length a)

/-- Python `l[a:]`. -/
def pySliceFrom (l : List α) (a : Int) : List α :=
  l.drop (pyBound l.length a)

/-- Python `l[:b]`. -/
def pySliceTo (l : List α) (b : Int) : List α :=
  l.take (pyBound l.length b)

/-- Python floor division `//` on integers. -/
def pyDiv (a b : Int) : Int := Int.fdiv a b

/-- Little-endian value of a byte list. -/
def leNat : Bytes → Nat
  | [] => 0
  | b :: rest => b + 256 * leNat rest

/-- Reinterpret an unsigned `w`-bit value as a signed one. -/
def toSigned (w : Nat) (n : Nat) : Int :=
  if n < 2 ^ (w - 1) then (n : Int) else (n : Int) - 2 ^ w

/-- Python list indexing `l[i]` for a non-negative index (IndexError when out
of range). -/
def pyListGet (l : List α) (i : Nat) : Except PyErr α :=
  match l.get? i with
  | some x => .ok x
  | none => .error .indexError

/-- First index of a byte in a byte string, `-1` when absent
(Python bytes.find). -/
def pyFind (l : Bytes) (b : Nat) : Int :=
  match l.findIdx? (fun x => x == b) with
  | some i => (i : Int)
  | none => -1

/-! ## Python values -/

/-- The Python values the parser stores into result tables.  The only list
value the source ever stores is the empty list (the fallback for a money
field of value 0 whose Format property matches no known format), so lists
are modelled by the single constructor `emptyList`. -/
inductive PyValue where
  | none
  | bool (b : Bool)
  | int (i : Int)
  /-- A Python float, represented by its IEEE-754 binary64 bit pattern. -/
  | float (bits : Nat)
  | str (s : String)
  | bytes (b : Bytes)
  | emptyList
  deriving Repr, DecidableEq

/-- IEEE-754 binary64: exact rational value of a bit pattern; `none` for
NaN and the infinities. -/
def f64ToRat (bits : Nat) : Option ℚ :=
  let sign : Nat := bits / 2 ^ 63 % 2
  let expo : Nat := bits / 2 ^ 52 % 2 ^ 11
  let frac : Nat := bits % 2 ^ 52
  if expo = 2047 then none
  else
    let mag : ℚ :=
      if expo = 0 then (frac : ℚ) * (2 : ℚ) ^ (-(1074 : ℤ))
      else ((2 ^ 52 + frac : ℚ)) * (2 : ℚ) ^ ((expo : ℤ) - 1075)
    some (if sign = 1 then -mag else mag)

def f64IsNan (bits : Nat) : Bool :=
  bits / 2 ^ 52 % 2 ^ 11 == 2047 && bits % 2 ^ 52 != 0

/-- Numeric value of a `PyValue` when it is a Python number
(bool, int, or non-NaN float). -/
def pyNumVal : PyValue → Option ℚ
  | .bool b => some (if b then 1 else 0)
  | .int i => some (i : ℚ)
  | .float bits => f64ToRat bits
  | _ => Option.none

/-- Python `==` on the values the parser produces.  Numbers compare across
types; NaN is unequal to everything (including itself). -/
def pyEq : PyValue → PyValue → Bool
  | .none, .none => true
  | .str a, .str b => a == b
  | .bytes a, .bytes b => a == b
  | .emptyList, .emptyList => true
  | a, b =>
    match pyNumVal a, pyNumVal b with
    | some x, some y => x == y
    | _, _ => false

/-- Python truthiness of a `PyValue`. -/
def pyTruthy : PyValue → Bool
  | .none => false
  | .bool b => b
  | .int i => i != 0
  | .float bits => bits % 2 ^ 63 != 0
  | .str s => s != ""
  | .bytes b => b != []
  | .emptyList => false

/-! ## Ordered dictionaries (insertion-ordered association lists)

Python dict assignment keeps the position of an existing key and appends a
fresh key at the end; lookups use `==`. -/

/-- Dict assignment `d[k] = v` with a custom equality. -/
def odSet (eq : α → α → Bool) (k : α) (v : β) : List (α × β) → List (α × β)
  | [] => [(k, v)]
  | (k0, v0) :: rest =>
    if eq k0 k then (k0, v) :: rest else (k0, v0) :: odSet eq k v rest

/-- Dict lookup `d.get(k)` with a custom equality. -/
def odGet (eq : α → α → Bool) (k : α) : List (α × β) → Option β
  | [] => Option.none
  | (k0, v0) :: rest => if eq k0 k then some v0 else odGet eq k rest

/-- Dict membership `k in d`. -/
def odMem (eq : α → α → Bool) (k : α) (d : List (α × β)) : Bool :=
  (odGet eq k d).isSome

/-! ## Byte-stream readers (the construct library) -/

structure PState where
  data : Bytes
  pos : Nat
  deriving Repr, DecidableEq

/-- Read `n` raw bytes from the stream (construct `Bytes(n)` / stream read);
a short read is a ConstructError. -/
def readBytesC (n : Nat) (s : PState) : Except PyErr (Bytes × PState) :=
  if s.pos + n ≤ s.data.length then
    .ok ((s.data.drop s.pos).take n, { s with pos := s.pos + n })
  else .error .constructError

/-- construct `Int8ul` / `Int16ul` / `Int24ul` / `Int32ul`: `n`-byte
little-endian unsigned integer. -/
def readUL (n : Nat) (s : PState) : Except PyErr (Nat × PState) := do
  let (bs, s') ← readBytesC n s
  pure (leNat bs, s')

/-- construct `Int8ub` / `Int16ub`: `n`-byte big-endian unsigned integer. -/
def readUB (n : Nat) (s : PState) : Except PyErr (Nat × PState) := do
  let (bs, s') ← readBytesC n s
  pure (leNat bs.reverse, s')

/-- construct `Int32sl`: 4-byte little-endian signed integer. -/
def readSL32 (s : PState) : Except PyErr (Int × PState) := do
  let (v, s') ← readUL 4 s
  pure (toSigned 32 v, s')

/-- construct `Const(bs)`: read and match a literal. -/
def readConst (bs : Bytes) (s : PState) : Except PyErr PState := do
  let (got, s') ← readBytesC bs.length s
  if got = bs then pure s' else .error .constructError

/-- construct `Array(n, subcon)`. -/
def readArray (n : Nat) (f : PState → Except PyErr (α × PState)) (s : PState) :
    Except PyErr (List α × PState) :=
  match n with
  | 0 => .ok ([], s)
  | n + 1 => do
    let (x, s') ← f s
    let (xs, s'') ← readArray n f s'
    pure (x :: xs, s'')


/-! ## Text codecs

The Python code decodes text with `bytes.decode(encoding)`; strict decoding
failures raise UnicodeDecodeError, and the fallback re-decodes with
`errors="replace"` (one U+FFFD per rejected unit, CPython semantics). -/

def replChar : Char := Char.ofNat 0xFFFD

/-- Strict UTF-8 decoding (CPython: rejects overlong forms, surrogates and
code points above U+10FFFF). -/
def utf8Decode : Bytes → Option (List Char)
  | [] => some []
  | b0 :: rest =>
    if b0 < 0x80 then (utf8Decode rest).map (Char.ofNat b0 :: ·)
    else if 0xC2 ≤ b0 ∧ b0 ≤ 0xDF then
      match rest with
      | b1 :: rest1 =>
        if 0x80 ≤ b1 ∧ b1 ≤ 0xBF then
          (utf8Decode rest1).map (Char.ofNat ((b0 - 0xC0) * 64 + (b1 - 0x80)) :: ·)
        else Option.none
      | _ => Option.none
    else if 0xE0 ≤ b0 ∧ b0 ≤ 0xEF then
      match rest with
      | b1 :: b2 :: rest2 =>
        let okB1 : Bool :=
          if b0 = 0xE0 then decide (0xA0 ≤ b1 ∧ b1 ≤ 0xBF)
          else if b0 = 0xED then decide (0x80 ≤ b1 ∧ b1 ≤ 0x9F)
          else decide (0x80 ≤ b1 ∧ b1 ≤ 0xBF)
        if okB1 ∧ 0x80 ≤ b2 ∧ b2 ≤ 0xBF then
          (utf8Decode rest2).map
            (Char.ofNat ((b0 - 0xE0) * 4096 + (b1 - 0x80) * 64 + (b2 - 0x80)) :: ·)
        else Option.none
      | _ => Option.none
    else if 0xF0 ≤ b0 ∧ b0 ≤ 0xF4 then
      match rest with
      | b1 :: b2 :: b3 :: rest3 =>
        let okB1 : Bool :=
          if b0 = 0xF0 then decide (0x90 ≤ b1 ∧ b1 ≤ 0xBF)
          else if b0 = 0xF4 then decide (0x80 ≤ b1 ∧ b1 ≤ 0x8F)
          else decide (0x80 ≤ b1 ∧ b1 ≤ 0xBF)
        if okB1 ∧ 0x80 ≤ b2 ∧ b2 ≤ 0xBF ∧ 0x80 ≤ b3 ∧ b3 ≤ 0xBF then
          (utf8Decode rest3).map
            (Char.ofNat ((b0 - 0xF0) * 262144 + (b1 - 0x80) * 4096 +
              (b2 - 0x80) * 64 + (b3 - 0x80)) :: ·)
        else Option.none
      | _ => Option.none
    else Option.none

/-- UTF-16 decoding worker, fuel-bounded (each step consumes at least one
byte, so fuel equal to the byte count suffices). -/
def utf16DecAux (be : Bool) (repl : Bool) : Nat → Bytes → Option (List Char)
  | _, [] => some []
  | 0, _ => Option.none
  | _ + 1, [_] => if repl then some [replChar] else Option.none
  | f + 1, b0 :: b1 :: rest =>
    let u := if be then b0 * 256 + b1 else b0 + 256 * b1
    if u < 0xD800 ∨ 0xE000 ≤ u then (utf16DecAux be repl f rest).map (Char.ofNat u :: ·)
    else if u ≤ 0xDBFF then
      match rest with
      | b2 :: b3 :: rest2 =>
        let u2 := if be then b2 * 256 + b3 else b2 + 256 * b3
        if 0xDC00 ≤ u2 ∧ u2 ≤ 0xDFFF then
          (utf16DecAux be repl f rest2).map
            (Char.ofNat (0x10000 + (u - 0xD800) * 1024 + (u2 - 0xDC00)) :: ·)
        else if repl then (utf16DecAux be repl f rest).map (replChar :: ·) else Option.none
      | _ => if repl then (utf16DecAux be repl f rest).map (replChar :: ·) else Option.none
    else if repl then (utf16DecAux be repl f rest).map (replChar :: ·) else Option.none

/-- UTF-16 decoding, little- or big-endian (`be`), strict or with U+FFFD
replacement (`repl`).  In strict mode a truncated pair, a lone surrogate or
an unpaired high surrogate yields `none`; in replacement mode each rejected
unit (or trailing byte) becomes one U+FFFD, matching CPython. -/
def utf16Dec (be : Bool) (repl : Bool) (l : Bytes) : Option (List Char) :=
  utf16DecAux be repl l.length l

/-- Code-page 1252: code point for a byte, `none` for the five unassigned
bytes (0x81, 0x8D, 0x8F, 0x90, 0x9D). -/
def cp1252Char (b : Nat) : Option Nat :=
  if b < 0x80 ∨ (0xA0 ≤ b ∧ b < 0x100) then some b
  else match b with
  | 0x80 => some 0x20AC
  | 0x82 => some 0x201A
  | 0x83 => some 0x192
  | 0x84 => some 0x201E
  | 0x85 => some 0x2026
  | 0x86 => some 0x2020
  | 0x87 => some 0x2021
  | 0x88 => some 0x2C6
  | 0x89 => some 0x2030
  | 0x8A => some 0x160
  | 0x8B => some 0x2039
  | 0x8C => some 0x152
  | 0x8E => some 0x17D
  | 0x91 => some 0x2018
  | 0x92 => some 0x2019
  | 0x93 => some 0x201C
  | 0x94 => some 0x201D
  | 0x95 => some 0x2022
  | 0x96 => some 0x2013
  | 0x97 => some 0x2014
  | 0x98 => some 0x2DC
  | 0x99 => some 0x2122
  | 0x9A => some 0x161
  | 0x9B => some 0x203A
  | 0x9C => some 0x153
  | 0x9E => some 0x17E
  | 0x9F => some 0x178
  | _ => Option.none

/-- Code-page 1252 decoding, strict or with replacement. -/
def cp1252Dec (repl : Bool) : Bytes → Option (List Char)
  | [] => some []
  | b :: rest =>
    match cp1252Char b with
    | some cp => (cp1252Dec repl rest).map (Char.ofNat cp :: ·)
    | Option.none =>
      if repl then (cp1252Dec repl rest).map (replChar :: ·) else Option.none

/-! ## IEEE-754 helpers -/

/-- Position of the most significant bit (fuel-bounded, enough for 32-bit
inputs). -/
def msbAux : Nat → Nat → Nat
  | 0, _ => 0
  | f + 1, n => if n ≤ 1 then 0 else msbAux f (n / 2) + 1

/-- Widen an IEEE-754 binary32 bit pattern to the binary64 pattern of the
same value (exact; Python floats are binary64, so `struct.unpack("f", ...)`
yields the widened value). -/
def f32ToF64Bits (bits32 : Nat) : Nat :=
  let s := bits32 / 2 ^ 31 % 2
  let e := bits32 / 2 ^ 23 % 2 ^ 8
  let m := bits32 % 2 ^ 23
  if e = 255 then s * 2 ^ 63 + 2047 * 2 ^ 52 + m * 2 ^ 29
  else if e = 0 then
    if m = 0 then s * 2 ^ 63
    else
      let t := msbAux 32 m
      s * 2 ^ 63 + (874 + t) * 2 ^ 52 + (m * 2 ^ (52 - t) - 2 ^ 52)
  else s * 2 ^ 63 + (e + 896) * 2 ^ 52 + m * 2 ^ 29

/-! ## Decimal digit strings -/

/-- Big-endian decimal digits, fuel-bounded (the fuel `n` itself always
suffices since a positive `n` has at most `n` digits). -/
def natDigitsF : Nat → Nat → List Nat
  | 0, _ => []
  | _ + 1, 0 => []
  | f + 1, n + 1 => natDigitsF f ((n + 1) / 10) ++ [(n + 1) % 10]

/-- Digits of Python `str(n)` for a natural number (so `0` renders "0"). -/
def pyNatDigits (n : Nat) : List Nat :=
  if n = 0 then [0] else natDigitsF n n

def digitToChar (d : Nat) : Char := Char.ofNat (48 + d)

/-- Characters of Python `str(n)` for a natural number. -/
def pyNatChars (n : Nat) : List Char := (pyNatDigits n).map digitToChar

/-- Left-pad a character list with zeros to width `k`. -/
def zeroPad (k : Nat) (l : List Char) : List Char :=
  List.replicate (k - l.length) '0' ++ l

/-! ## The proleptic Gregorian calendar (Python datetime) -/

/-- Days from civil date to the epoch 1970-01-01 (Hinnant's algorithm,
matching Python's proleptic Gregorian calendar). -/
def daysFromCivil (y m d : Int) : Int :=
  let yy := if m ≤ 2 then y - 1 else y
  let era := Int.fdiv yy 400
  let yoe := yy - era * 400
  let mp := Int.fmod (m + 9) 12
  let doy := Int.fdiv (153 * mp + 2) 5 + d - 1
  let doe := yoe * 365 + Int.fdiv yoe 4 - Int.fdiv yoe 100 + doy
  era * 146097 + doe - 719468

/-- Civil date from days since 1970-01-01 (inverse of `daysFromCivil`). -/
def civilFromDays (z0 : Int) : Int × Int × Int :=
  let z := z0 + 719468
  let era := Int.fdiv z 146097
  let doe := z - era * 146097
  let yoe := Int.fdiv (doe - Int.fdiv doe 1460 + Int.fdiv doe 36524 - Int.fdiv doe 146096) 365
  let y := yoe + era * 400
  let doy := doe - (365 * yoe + Int.fdiv yoe 4 - Int.fdiv yoe 100)
  let mp := Int.fdiv (5 * doy + 2) 153
  let d := doy - Int.fdiv (153 * mp + 2) 5 + 1
  let m := mp + (if mp < 10 then 3 else -9)
  (if m ≤ 2 then y + 1 else y, m, d)

def usPerDay : Int := 86400000000

/-- A Python `datetime` is modelled by its microsecond offset from
0001-01-01 00:00:00 (its minimum). -/
def dtMaxUs : Int := (daysFromCivil 9999 12 31 - daysFromCivil 1 1 1) * usPerDay + 86399999999

/-- `ACCESS_EPOCH = datetime(1899, 12, 30)` as a microsecond offset. -/
def accessEpochUs : Int := (daysFromCivil 1899 12 30 - daysFromCivil 1 1 1) * usPerDay

/-- Binary-recursion power of two (fuel-bounded at 64 halvings, enough for
any 64-bit exponent; keeps kernel reduction shallow). -/
def pow2Aux : Nat → Nat → Nat
  | 0, _ => 1
  | _ + 1, 0 => 1
  | f + 1, k =>
    let h := pow2Aux f (k / 2)
    (if k % 2 = 1 then 2 else 1) * h * h

def pow2 (k : Nat) : Nat := pow2Aux 64 k

/-- Round to the nearest integer, ties to even (CPython's rounding of a
fractional timedelta to whole microseconds). -/
def roundHalfEven (q : ℚ) : Int :=
  let f : Int := q.floor
  let frac : ℚ := q - (f : ℚ)
  if frac < 1 / 2 then f
  else if 1 / 2 < frac then f + 1
  else if Int.emod f 2 = 0 then f else f + 1

/-- Round `n / 2^k` to the nearest integer, ties to even (exact dyadic
counterpart of `roundHalfEven`, kept in integer arithmetic). -/
def roundHalfEvenDiv (n : Int) (k : Nat) : Int :=
  let d : Int := ((pow2 k : Nat) : Int)
  let q := Int.fdiv n d
  let r := n - q * d
  if 2 * r < d then q
  else if 2 * r > d then q + 1
  else if Int.emod q 2 = 0 then q else q + 1

/-- Exact dyadic value of a float64 bit pattern: `(m, k)` with value
`m / 2^k`; `none` for NaN and the infinities.  Every finite float64 is
dyadic, so this carries the same information as `f64ToRat` in a form the
date pipeline can compute with exactly. -/
def f64ToDyadic (bits : Nat) : Option (Int × Nat) :=
  let sign : Nat := bits / 2 ^ 63 % 2
  let expo : Nat := bits / 2 ^ 52 % 2 ^ 11
  let frac : Nat := bits % 2 ^ 52
  if expo = 2047 then Option.none
  else
    let mk : Int × Nat :=
      if expo = 0 then ((frac : Int), 1074)
      else if 1075 ≤ expo then (((2 ^ 52 + frac : Nat) : Int) * ((pow2 (expo - 1075) : Nat) : Int), 0)
      else (((2 ^ 52 + frac : Nat) : Int), 1075 - expo)
    some (if sign = 1 then -mk.1 else mk.1, mk.2)

/-- Python `timedelta` of a whole number of microseconds; OverflowError
when the normalized day count leaves ±999999999. -/
def pyTimedeltaUs (us : Int) : Except PyErr Int :=
  if -999999999 * usPerDay ≤ us ∧ us < 1000000000 * usPerDay then .ok us
  else .error .overflowError

/-- Python `datetime + timedelta`: OverflowError when the result leaves the
representable range (years 1..9999). -/
def dtAdd (t delta : Int) : Except PyErr Int :=
  let t2 := t + delta
  if 0 ≤ t2 ∧ t2 ≤ dtMaxUs then .ok t2 else .error .overflowError

/-- Python `str(datetime)`: "YYYY-MM-DD HH:MM:SS" with ".ffffff" appended
exactly when the microsecond field is nonzero. -/
def fmtDatetime (t : Int) : String :=
  let days := Int.fdiv t usPerDay
  let rem := (Int.fmod t usPerDay).toNat
  let c := civilFromDays (days + daysFromCivil 1 1 1)
  let us := rem % 1000000
  let secs := rem / 1000000
  let core :=
    zeroPad 4 (pyNatChars c.1.toNat) ++ ['-'] ++
    zeroPad 2 (pyNatChars c.2.1.toNat) ++ ['-'] ++
    zeroPad 2 (pyNatChars c.2.2.toNat) ++ [' '] ++
    zeroPad 2 (pyNatChars (secs / 3600)) ++ [':'] ++
    zeroPad 2 (pyNatChars (secs / 60 % 60)) ++ [':'] ++
    zeroPad 2 (pyNatChars (secs % 60))
  String.mk (core ++ (if us ≠ 0 then ['.'] ++ zeroPad 6 (pyNatChars us) else []))

/-! ## utils.py: text decoding -/

/-- decodeUncompressedText from utils.py: slice `[dataStart:dataEnd]`,
decode per version (cp1252 for Jet 3, UTF-16LE otherwise), falling back to
replacement characters on a strict-decoding failure (the callers always
pass strict=False). -/
def decodeUncompressedText (textBytes : Bytes) (dataStart dataEnd : Nat) (version : Nat) :
    String :=
  let bytesToDecode := (textBytes.take dataEnd).drop dataStart
  let strictRes :=
    if version = 3 then cp1252Dec false bytesToDecode else utf16Dec false false bytesToDecode
  match strictRes with
  | some cs => String.mk cs
  | Option.none =>
    String.mk
      ((if version = 3 then cp1252Dec true bytesToDecode
        else utf16Dec false true bytesToDecode).getD [])

/-- Expansion of a compressed segment: `expanded[::2] = segment` with the
odd positions left zero. -/
def interleaveZeros : Bytes → Bytes
  | [] => []
  | b :: rest => b :: 0 :: interleaveZeros rest

/-- decodeTextSegment from utils.py. -/
def decodeTextSegment (data : Bytes) (dataStart dataEnd : Nat) (inCompressedMode : Bool)
    (version : Nat) : String :=
  if dataEnd ≤ dataStart then ""
  else if inCompressedMode then
    let segment := (data.take dataEnd).drop dataStart
    let expanded := interleaveZeros segment
    decodeUncompressedText expanded 0 expanded.length version
  else decodeUncompressedText data dataStart dataEnd version

/-- The segment loop of decodeTextValue.  The Python loop advances an index
`dataEnd` over `data`; here the yet-unprocessed suffix `data.drop dataEnd`
is recursed on while `dataStart` and `dataEnd` track the same indices, and
the final segment is decoded when the suffix is exhausted. -/
def decodeTextLoop (data : Bytes) (version : Nat) : Nat → Nat → Bool → Bytes → String
  | dataStart, dataEnd, mode, [] => decodeTextSegment data dataStart dataEnd mode version
  | dataStart, dataEnd, mode, b :: rest =>
    if b = 0 then
      decodeTextSegment data dataStart dataEnd mode version ++
        decodeTextLoop data version (dataEnd + 1) (dataEnd + 1) (!mode) rest
    else decodeTextLoop data version dataStart (dataEnd + 1) mode rest

/-- decodeTextValue from utils.py. -/
def decodeTextValue (data : Bytes) (version : Nat) : String :=
  if version = 3 then decodeUncompressedText data 0 data.length version
  else
    let isCompressed := 1 < data.length ∧ data.take 2 = [0xFF, 0xFE]
    if isCompressed then decodeTextLoop data version 2 2 true (data.drop 2)
    else decodeUncompressedText data 0 data.length version

/-! ## utils.py: dates -/

/-- mdb_date_to_readable from utils.py.  The input is the record field
reinterpreted as a signed 64-bit integer (struct "q"); the function packs it
back to 8 bytes and reads them as a float64.  math.modf splits the (exact,
dyadic) value by truncation; each part becomes a timedelta rounded to whole
microseconds half-to-even and is added to the epoch.  struct.error and
OverflowError are caught and yield the literal strings; `timedelta` of a
NaN raises an uncaught ValueError. -/
def mdb_date_to_readable (double_time : Int) : Except PyErr String :=
  if double_time < -(((2 ^ 63 : Nat) : Int)) ∨ ((2 ^ 63 : Nat) : Int) ≤ double_time then
    pure "(Invalid Date)"
  else
    let bits := (Int.emod double_time ((2 ^ 64 : Nat) : Int)).toNat
    if f64IsNan bits then .error .valueError
    else
      match f64ToDyadic bits with
      | Option.none => pure "(Invalid Date)"
      | some mk =>
        let m := mk.1
        let k := mk.2
        let dtime_whole := Int.tdiv m ((pow2 k : Nat) : Int)
        let frac_num := m - dtime_whole * ((pow2 k : Nat) : Int)
        let res : Except PyErr Int := do
          let d1 ← pyTimedeltaUs (dtime_whole * 86400000000)
          let t1 ← dtAdd accessEpochUs d1
          let d2 ← pyTimedeltaUs (roundHalfEvenDiv (frac_num * 86400000000) k)
          dtAdd t1 d2
        match res with
        | .error .overflowError => pure "(Invalid Date)"
        | .error e => .error e
        | .ok t => if t = accessEpochUs then pure "(Empty Date)" else pure (fmtDatetime t)

/-! ## utils.py: the 17-byte decimal -/

/-- Python `l[-k:]` for a natural `k` (note `l[-0:]` is the whole list, but
the caller below never passes `k = 0`). -/
def lastK (k : Nat) (l : List α) : List α := pySliceFrom l (-(k : Int))

/-- numeric_to_string from utils.py: unpack "<BIIII", build the 128-bit
integer (first limb most significant), then place the decimal point
`scale` digits from the right, zero-padding when the digit string is not
longer than the scale. -/
def numeric_to_string (bytes_num : Bytes) (scale : Nat) : Except PyErr String :=
  if bytes_num.length ≠ 17 then .error .structError
  else
    let neg := bytes_num.headD 0
    let num1 := leNat (pySlice bytes_num 1 5)
    let num2 := leNat (pySlice bytes_num 5 9)
    let num3 := leNat (pySlice bytes_num 9 13)
    let num4 := leNat (pySlice bytes_num 13 17)
    let full_number := num1 * 2 ^ 96 + num2 * 2 ^ 64 + num3 * 2 ^ 32 + num4
    let s0 := pyNatChars full_number
    let s1 :=
      if scale < s0.length then
        s0.take (s0.length - scale) ++ ['.'] ++ s0.drop (s0.length - scale)
      else s0
    let s2 :=
      if s1.length ≤ scale then
        '0' :: '.' :: lastK scale (List.replicate scale '0' ++ s1)
      else s1
    pure (String.mk ((if neg ≠ 0 then ['-'] else []) ++ s2))

/-! ## utils.py: money formatting -/

/-- Characters of Python `str(i)` for an integer. -/
def pyIntChars (i : Int) : List Char :=
  (if i < 0 then ['-'] else []) ++ pyNatChars i.natAbs

def isDigitChar (c : Char) : Bool := 48 ≤ c.toNat && c.toNat ≤ 57

def charToDigit (c : Char) : Nat := c.toNat - 48

/-- Value of a big-endian digit-character list. -/
def digitsVal (l : List Char) : Nat := l.foldl (fun a c => 10 * a + charToDigit c) 0

/-- Python `float(s)` on the plain decimal strings this code builds:
optional sign, digits with at most one dot and at least one digit.
`none` models the ValueError of a malformed literal.  (CPython rounds the
literal to binary64; the value is modelled exactly.) -/
def pyFloatParse (l : List Char) : Option ℚ :=
  let (sgn, rest) : ℚ × List Char :=
    match l with
    | '-' :: r => (-1, r)
    | '+' :: r => (1, r)
    | r => (1, r)
  let intPart := rest.takeWhile isDigitChar
  let rest2 := rest.drop intPart.length
  match rest2 with
  | [] => if intPart.isEmpty then Option.none else some (sgn * (digitsVal intPart : ℚ))
  | '.' :: fracPart =>
    if fracPart.all isDigitChar ∧ ¬(intPart.isEmpty ∧ fracPart.isEmpty) then
      some (sgn * ((digitsVal intPart : ℚ) +
        (digitsVal fracPart : ℚ) / (10 : ℚ) ^ fracPart.length))
    else Option.none
  | _ => Option.none

/-- Insert thousands separators into a digit list (Python "{:,}"). -/
def groupDigits (l : List Char) : List Char :=
  let k := l.length % 3
  let lead := l.take k
  let rest := l.drop k
  let chunks := (List.range (rest.length / 3)).map (fun i => rest.drop (3 * i) |>.take 3)
  let grouped := chunks.foldl (fun acc c => acc ++ (if acc.isEmpty ∧ lead.isEmpty then [] else [',']) ++ c) lead
  grouped

/-- Python fixed-point float formatting ("{:.kf}" / "{:,.kf}"): round the
(exact) value to `k` decimals half-to-even, then render with an optional
thousands grouping. -/
def fmtFixed (q : ℚ) (k : Nat) (grouping : Bool) : List Char :=
  let n := roundHalfEven (|q| * (10 : ℚ) ^ k)
  let ds := pyNatDigits n.toNat
  let ds := if ds.length ≤ k then List.replicate (k + 1 - ds.length) 0 ++ ds else ds
  let intPart := (ds.take (ds.length - k)).map digitToChar
  let fracPart := (ds.drop (ds.length - k)).map digitToChar
  let intPart := if grouping then groupDigits intPart else intPart
  (if q < 0 then ['-'] else []) ++ intPart ++
    (if k = 0 then [] else ['.'] ++ fracPart)

/-- Floor of log10 of a positive rational, searched downward with fuel
(enough for every float64 magnitude). -/
def log10FloorAux : Nat → ℚ → Int → Int
  | 0, _, e => e
  | f + 1, q, e => if q < 1 then log10FloorAux f (q * 10) (e - 1) else e

def log10Floor (q : ℚ) : Int :=
  if 1 ≤ q then ((pyNatDigits q.floor.toNat).length : Int) - 1
  else log10FloorAux 400 (q * 10) (-1)

/-- Python scientific float formatting "{:.2e}". -/
def fmtSci (q : ℚ) : List Char :=
  if q = 0 then ['0', '.', '0', '0', 'e', '+', '0', '0']
  else
    let a := |q|
    let e0 := log10Floor a
    let m0 := roundHalfEven (a * (10 : ℚ) ^ (2 - e0))
    let (m, e) := if m0 ≥ 1000 then (100, e0 + 1) else (m0, e0)
    let md := zeroPad 3 (pyNatChars m.toNat)
    (if q < 0 then ['-'] else []) ++ [md.headD '0', '.'] ++ md.drop 1 ++
      ['e'] ++ (if e < 0 then ['-'] else ['+']) ++ zeroPad 2 (pyNatChars e.natAbs)

/-- parse_money_type from utils.py: insert the decimal point into
`str(parsed)` at a format-specific position, run the string through
`float`, and re-render with the format's picture.  (CPython's float
round-trip is modelled by exact rational arithmetic.) -/
def parse_money_type (parsed : Int) (prop_format : String) : Except PyErr String :=
  let s := pyIntChars parsed
  let render (dot_location : Int) (fmt : ℚ → List Char) : Except PyErr String :=
    let money_float := pySliceTo s dot_location ++ ['.'] ++ pySliceFrom s dot_location
    match pyFloatParse money_float with
    | some q => pure (String.mk (fmt q))
    | Option.none => .error .valueError
  if prop_format = "Percent" then
    render (-2) (fun q => fmtFixed q 2 false ++ ['%'])
  else if prop_format.startsWith "$" then
    render (-4) (fun q => '$' :: fmtFixed q 2 true)
  else if prop_format.startsWith "€" then
    render (-4) (fun q => '€' :: fmtFixed q 2 true)
  else if prop_format = "General Number" then
    render (-4) (fun q => fmtFixed q 1 true)
  else if prop_format = "Scientific" then
    render (-4) fmtSci
  else if prop_format = "Fixed" ∨ prop_format = "Standard" then
    render (-4) (fun q => fmtFixed q 2 true)
  else pure (String.mk s)

/-- The insertion-ordered FORMAT_TO_DEFAULT_VALUE table from utils.py. -/
def formatDefaults : List (String × String) :=
  [("$", "$0.00"), ("Standard", "0.00"), ("Fixed", "0.00"), ("Percent", "0.00%"),
   ("€", "€0.00"), ("General Number", "0"), ("Scientific", "0.00E+00")]

/-! ## utils.py: parse_type -/

def hexChar (d : Nat) : Char := if d < 10 then Char.ofNat (48 + d) else Char.ofNat (87 + d)

def byteHex (b : Nat) : List Char := [hexChar (b / 16 % 16), hexChar (b % 16)]

/-- Canonical string of `uuid.UUID(bytes16.hex())`. -/
def uuidCanonical (bytes16 : Bytes) : String :=
  let h := bytes16.flatMap byteHex
  String.mk (h.take 8 ++ ['-'] ++ (h.drop 8).take 4 ++ ['-'] ++ (h.drop 12).take 4 ++
    ['-'] ++ (h.drop 16).take 4 ++ ['-'] ++ h.drop 20)

/-- The money branch of parse_type (type code 5). -/
def parseMoney (buffer : Bytes) (props : Option (List (String × PyValue))) :
    Except PyErr PyValue := do
  if buffer.length < 8 then .error .structError
  let parsed := toSigned 64 (leNat (buffer.take 8))
  let ps := props.getD []
  match (if ps ≠ [] then odGet (fun a b => a == b) "Format" ps else Option.none) with
  | Option.none => pure (.int parsed)
  | some fmtV =>
    match fmtV with
    | .str prop_format =>
      if parsed = 0 then
        let hits := formatDefaults.filter (fun kv => prop_format.startsWith kv.1)
        match hits with
        | [] => pure .emptyList
        | (_, d) :: _ => pure (.str d)
      else do
        let s ← parse_money_type parsed prop_format
        pure (.str s)
    | _ => .error .attributeError

/-- parse_type from utils.py.  Unknown type codes fall through to the
initial value, the empty string. -/
def parse_type (data_type : Nat) (buffer : Bytes) (length : Option Int) (version : Nat)
    (props : Option (List (String × PyValue))) : Except PyErr PyValue :=
  if data_type = 2 then
    if buffer.length < 1 then .error .structError
    else pure (.int (toSigned 8 (leNat (buffer.take 1))))
  else if data_type = 3 then
    if buffer.length < 2 then .error .structError
    else pure (.int (toSigned 16 (leNat (buffer.take 2))))
  else if data_type = 4 ∨ data_type = 18 then
    if buffer.length < 4 then .error .structError
    else pure (.int (toSigned 32 (leNat (buffer.take 4))))
  else if data_type = 5 then parseMoney buffer props
  else if data_type = 6 then
    if buffer.length < 4 then .error .structError
    else pure (.float (f32ToF64Bits (leNat (buffer.take 4))))
  else if data_type = 7 then
    if buffer.length < 8 then .error .structError
    else pure (.float (leNat (buffer.take 8)))
  else if data_type = 8 then
    if buffer.length < 8 then .error .structError
    else do
      let s ← mdb_date_to_readable (toSigned 64 (leNat (buffer.take 8)))
      pure (.str s)
  else if data_type = 9 then
    match length with
    | Option.none => pure (.bytes buffer)
    | some l => pure (.bytes (pySliceTo buffer l))
  else if data_type = 11 then pure (.bytes buffer)
  else if data_type = 15 then
    let parsed := pySliceTo buffer (16 : Int)
    if parsed.length ≠ 16 then .error .valueError
    else pure (.str (uuidCanonical parsed))
  else if data_type = 16 then pure (.bytes (pySliceTo buffer (17 : Int)))
  else if data_type = 10 then pure (.str (decodeTextValue buffer version))
  else pure (.str "")

/-! ## utils.py: page categorization -/

/-- categorize_pages from utils.py: slice the image into page_size chunks
keyed by offset and classify by the two magic bytes (table definitions
"02 01", data pages "01 01").  A trailing partial page is kept, as in the
source (which only logs a warning). -/
def categorize_pages (db_data : Bytes) (page_size : Nat) :
    List (Nat × Bytes) × List (Nat × Bytes) × List (Nat × Bytes) :=
  let n := if page_size = 0 then 0 else (db_data.length + page_size - 1) / page_size
  let pages := (List.range n).map
    (fun i => (i * page_size, (db_data.drop (i * page_size)).take page_size))
  let data_pages := pages.filter (fun kv => kv.2.take 2 = [1, 1])
  let table_defs := pages.filter (fun kv => kv.2.take 2 = [2, 1])
  (table_defs, data_pages, pages)

/-! ## parsing_primitives.py

Each construct Struct is modelled by a Lean structure and a monadic reader.
String decoding failures inside construct grammars are StringError, a
ConstructError subclass, hence modelled as `constructError`. -/

/-- construct `If(cond, subcon)`: parse only when the condition holds. -/
def readIf (cond : Bool) (f : PState → Except PyErr (α × PState)) (s : PState) :
    Except PyErr (Option α × PState) :=
  if cond then do
    let (x, s') ← f s
    pure (some x, s')
  else pure (Option.none, s)

/-- construct `CString("utf8")`: bytes up to a NUL terminator, decoded. -/
def readCString (s : PState) : Except PyErr (String × PState) :=
  let rest := s.data.drop s.pos
  let term := rest.takeWhile (fun b => b != 0)
  if term.length = rest.length then .error .constructError
  else
    match utf8Decode term with
    | some cs => .ok (String.mk cs, { s with pos := s.pos + term.length + 1 })
    | Option.none => .error .constructError

/-- Drop trailing aligned `00 00` units from a reversed list. -/
def dropZeroPairs : Bytes → Bytes
  | 0 :: 0 :: rest => dropZeroPairs rest
  | l => l

/-- Strip the trailing padding of a construct PaddedString: all trailing
NUL bytes for one-byte encodings, aligned `00 00` units for UTF-16. -/
def nullStrip (unit2 : Bool) (l : Bytes) : Bytes :=
  if unit2 then (dropZeroPairs l.reverse).reverse
  else (l.reverse.dropWhile (fun b => b == 0)).reverse

/-- The Python "utf16" codec (strict): honours a BOM, defaulting to
little-endian without one. -/
def pyUtf16DecodeStrict (l : Bytes) : Option (List Char) :=
  if l.take 2 = [0xFF, 0xFE] then utf16Dec false false (l.drop 2)
  else if l.take 2 = [0xFE, 0xFF] then utf16Dec true false (l.drop 2)
  else utf16Dec false false l

/-- construct `PaddedString(n, "utf8")`. -/
def readPaddedStringUtf8 (n : Nat) (s : PState) : Except PyErr (String × PState) := do
  let (bs, s') ← readBytesC n s
  match utf8Decode (nullStrip false bs) with
  | some cs => pure (String.mk cs, s')
  | Option.none => .error .constructError

/-- construct `PaddedString(n, "utf16")`. -/
def readPaddedStringUtf16 (n : Nat) (s : PState) : Except PyErr (String × PState) := do
  let (bs, s') ← readBytesC n s
  match pyUtf16DecodeStrict (nullStrip true bs) with
  | some cs => pure (String.mk cs, s')
  | Option.none => .error .constructError

structure AccessHeader where
  jet_string : String
  jet_version : Nat
  deriving Repr, DecidableEq

/-- ACCESSHEADER from parsing_primitives.py: the literal `00 01 00 00`, a
NUL-terminated UTF-8 string, a 32-bit version, and 126 padding bytes. -/
def ACCESSHEADER_parse (buffer : Bytes) : Except PyErr AccessHeader := do
  let s1 ← readConst [0, 1, 0, 0] ⟨buffer, 0⟩
  let (js, s2) ← readCString s1
  let (ver, s3) ← readUL 4 s2
  let _ ← readBytesC 126 s3
  pure ⟨js, ver⟩

structure MemoS where
  memo_length : Nat
  record_pointer : Nat
  memo_unknown : Nat
  memo_end : Nat
  deriving Repr, DecidableEq

/-- MEMO from parsing_primitives.py. -/
def MEMO_parse (buffer : Bytes) : Except PyErr MemoS := do
  let (ml, s1) ← readUL 4 ⟨buffer, 0⟩
  let (rp, s2) ← readUL 4 s1
  let (mu, s3) ← readUL 4 s2
  pure ⟨ml, rp, mu, s3.pos⟩

structure TdefHeader where
  peek_version : Option Nat
  tdef_ver : Nat
  next_page_ptr : Nat
  header_end : Nat
  deriving Repr, DecidableEq

/-- TDEF_HEADER from parsing_primitives.py.  The IfThenElse condition
compares the peeked integer with the bytes literal b"VC", which is always
false in Python, so the Int16ul branch is always taken. -/
def TDEF_HEADER_parse (buffer : Bytes) : Except PyErr TdefHeader := do
  let s1 ← readConst [2, 1] ⟨buffer, 0⟩
  let peeked : Option Nat :=
    match readUL 2 s1 with
    | .ok (v, _) => some v
    | .error _ => Option.none
  let (ver, s2) ← readUL 2 s1
  let (nxt, s3) ← readUL 4 s2
  pure ⟨peeked, ver, nxt, s3.pos⟩

structure TableHeadS where
  TDEF_header : TdefHeader
  table_definition_length : Nat
  ver4_unknown : Option Nat
  number_of_rows : Nat
  autonumber : Nat
  autonumber_increment : Option Nat
  complex_autonumber : Option Nat
  ver4_unknown_1 : Option Nat
  ver4_unknown_2 : Option Nat
  table_type_flags : Nat
  next_column_id : Nat
  variable_columns : Nat
  column_count : Nat
  index_count : Nat
  real_index_count : Nat
  row_page_map_row_number : Nat
  row_page_map_page_number : Nat
  free_space_page_map_row_number : Nat
  free_space_page_map_page_number : Nat
  tdef_header_end : Nat
  deriving Repr, DecidableEq

/-- parse_table_head from parsing_primitives.py (version-parameterized). -/
def parse_table_head (buffer : Bytes) (version : Nat) : Except PyErr TableHeadS := do
  let v4 := decide (version > 3)
  let s0 : PState := ⟨buffer, 0⟩
  let hdr ← TDEF_HEADER_parse buffer
  let s1 : PState := { s0 with pos := hdr.header_end }
  let (tdl, s2) ← readUL 4 s1
  let (v4u, s3) ← readIf v4 (readUL 4) s2
  let (nrows, s4) ← readUL 4 s3
  let (autonum, s5) ← readUL 4 s4
  let (autoinc, s6) ← readIf v4 (readUL 4) s5
  let (cplx, s7) ← readIf v4 (readUL 4) s6
  let (v4u1, s8) ← readIf v4 (readUL 4) s7
  let (v4u2, s9) ← readIf v4 (readUL 4) s8
  let (ttf, s10) ← readUL 1 s9
  let (ncid, s11) ← readUL 2 s10
  let (varcols, s12) ← readUL 2 s11
  let (colcnt, s13) ← readUL 2 s12
  let (idxcnt, s14) ← readUL 4 s13
  let (ridxcnt, s15) ← readUL 4 s14
  let (rpmr, s16) ← readUL 1 s15
  let (rpmp, s17) ← readUL 3 s16
  let (fsmr, s18) ← readUL 1 s17
  let (fsmp, s19) ← readUL 3 s18
  pure ⟨hdr, tdl, v4u, nrows, autonum, autoinc, cplx, v4u1, v4u2, ttf, ncid, varcols,
        colcnt, idxcnt, ridxcnt, rpmr, rpmp, fsmr, fsmp, s19.pos⟩

structure RealIndex where
  unk1 : Nat
  index_row_count : Nat
  ver4_always_zero : Option Nat
  deriving Repr, DecidableEq

/-- The type-dependent `various` sub-layout of a column descriptor. -/
inductive Various where
  | text3 (LCID code_page unknown : Nat)
  | text4 (collation : Nat) (unknown : Nat) (collation_version_number : Nat)
  | dec3 (unknown : Nat) (max_number_of_digits number_of_decimal : Nat) (unknown2 : Nat)
  | dec4 (max_num_of_digits num_of_decimal_digits : Nat) (unknown : Nat)
  | numeric (prec scale : Nat) (unknown : Nat)
  | raw (b : Bytes)
  deriving Repr, DecidableEq

/-- Python `column.get('various', {}).get('scale', 6)`: the scale field of
a numeric sub-layout, the default 6 for the other container layouts, and an
AttributeError when `various` is a plain bytes value. -/
def Various.scaleOrDefault : Various → Except PyErr Nat
  | .numeric _ s _ => .ok s
  | .raw _ => .error .attributeError
  | _ => .ok 6

structure ColumnFlags where
  hyperlink : Bool
  auto_GUID : Bool
  unk_1 : Bool
  replication : Bool
  unk_2 : Bool
  autonumber : Bool
  can_be_null : Bool
  fixed_length : Bool
  /-- The second byte of VERSION_4_FLAGS (MSB first); empty for Jet 3. -/
  extra_v4 : List Bool
  deriving Repr, DecidableEq

def byteBitsMSB (b : Nat) : List Bool := (List.range 8).map (fun i => b.testBit (7 - i))

/-- VERSION_3_FLAGS / VERSION_4_FLAGS: a BitStruct reads bits MSB-first, so
the first listed flag is the top bit and `fixed_length` is bit 0 of the
first byte. -/
def readColumnFlags (v4 : Bool) (s : PState) : Except PyErr (ColumnFlags × PState) := do
  let (b0, s1) ← readUL 1 s
  let (extra, s2) ←
    if v4 then do
      let (b1, s2) ← readUL 1 s1
      pure (byteBitsMSB b1, s2)
    else pure (([] : List Bool), s1)
  pure (⟨b0.testBit 7, b0.testBit 6, b0.testBit 5, b0.testBit 4, b0.testBit 3,
         b0.testBit 2, b0.testBit 1, b0.testBit 0, extra⟩, s2)

structure ColumnS where
  type : Nat
  ver4_unknown_3 : Option Nat
  column_id : Nat
  variable_column_number : Nat
  column_index : Nat
  various : Various
  column_flags : ColumnFlags
  ver4_unknown_4 : Option Nat
  fixed_offset : Nat
  length : Nat
  col_name_str : String := ""
  extra_props : Option (List (String × PyValue)) := Option.none
  deriving Repr, DecidableEq

/-- The `various` Switch of the COLUMN struct. -/
def readVarious (version : Nat) (ty : Nat) (s : PState) : Except PyErr (Various × PState) :=
  if ty = 9 ∨ ty = 10 ∨ ty = 11 ∨ ty = 12 then
    if version = 3 then do
      let (a, s1) ← readUL 2 s
      let (b, s2) ← readUL 2 s1
      let (c, s3) ← readUL 2 s2
      pure (.text3 a b c, s3)
    else do
      let (a, s1) ← readUL 2 s
      let (b, s2) ← readUL 1 s1
      let (c, s3) ← readUL 1 s2
      pure (.text4 a b c, s3)
  else if ty = 16 then do
    let (p, s1) ← readUL 1 s
    let (sc, s2) ← readUL 1 s1
    let (u, s3) ← readUL (if version = 3 then 4 else 2) s2
    pure (.numeric p sc u, s3)
  else if 1 ≤ ty ∧ ty ≤ 8 then
    if version = 3 then do
      let (u1, s1) ← readUL 2 s
      let (md, s2) ← readUL 1 s1
      let (nd, s3) ← readUL 1 s2
      let (u2, s4) ← readUL 2 s3
      pure (.dec3 u1 md nd u2, s4)
    else do
      let (md, s1) ← readUL 1 s
      let (nd, s2) ← readUL 1 s1
      let (u, s3) ← readUL 2 s2
      pure (.dec4 md nd u, s3)
  else do
    let (bs, s1) ← readBytesC (if version = 3 then 6 else 4) s
    pure (.raw bs, s1)

/-- The COLUMN struct of parse_table_data. -/
def readColumn (version : Nat) (s : PState) : Except PyErr (ColumnS × PState) := do
  let v4 := decide (version > 3)
  let (ty, s1) ← readUL 1 s
  let (u3, s2) ← readIf v4 (readUL 4) s1
  let (cid, s3) ← readUL 2 s2
  let (vcn, s4) ← readUL 2 s3
  let (cidx, s5) ← readUL 2 s4
  let (var, s6) ← readVarious version ty s5
  let (flags, s7) ← readColumnFlags v4 s6
  let (u4, s8) ← readIf v4 (readUL 4) s7
  let (fo, s9) ← readUL 2 s8
  let (len, s10) ← readUL 2 s9
  pure ({ type := ty, ver4_unknown_3 := u3, column_id := cid, variable_column_number := vcn,
          column_index := cidx, various := var, column_flags := flags, ver4_unknown_4 := u4,
          fixed_offset := fo, length := len }, s10)

/-- The COLUMN_NAMES / INDEX_NAMES structs: a length-prefixed string whose
prefix width and encoding switch on the version. -/
def readLenString (version : Nat) (s : PState) : Except PyErr (String × PState) := do
  if version = 3 then do
    let (n, s1) ← readUL 1 s
    readPaddedStringUtf8 n s1
  else do
    let (n, s1) ← readUL 2 s
    readPaddedStringUtf16 n s1

structure IndexColSlot where
  col_id : Nat
  idx_flags : Nat
  deriving Repr, DecidableEq

structure RealIndex2 where
  unknown_b1 : Option Nat
  unk_struct : List IndexColSlot
  runk : Nat
  first_index_page : Nat
  flags : Nat
  deriving Repr, DecidableEq

/-- REAL_INDEX2 from parse_table_data. -/
def readRealIndex2 (version : Nat) (s : PState) : Except PyErr (RealIndex2 × PState) := do
  let v4 := decide (version > 3)
  let (b1, s1) ← readIf v4 (readUL 4) s
  let (slots, s2) ← readArray 10 (fun st => do
    let (c, st1) ← readUL 2 st
    let (f, st2) ← readUL 1 st1
    pure ((⟨c, f⟩ : IndexColSlot), st2)) s1
  let (runk, s3) ← readUL 4 s2
  let (fip, s4) ← readUL 4 s3
  let (fl, s5) ← readUL 1 s4
  let s6 ← if v4 then do
      let (_, s6) ← readBytesC 9 s5
      pure s6
    else pure s5
  pure (⟨b1, slots, runk, fip, fl⟩, s6)

structure AllIndex where
  unknown_c1 : Option Nat
  idx_num : Nat
  idx_col_num : Nat
  rel_tbl_type : Nat
  rel_idx_num : Int
  rel_tbl_page : Nat
  cascade_ups : Nat
  cascade_dels : Nat
  idx_type : Nat
  unknown_c2 : Option Nat
  deriving Repr, DecidableEq

/-- ALL_INDEXES from parse_table_data. -/
def readAllIndex (version : Nat) (s : PState) : Except PyErr (AllIndex × PState) := do
  let v4 := decide (version > 3)
  let (c1, s1) ← readIf v4 (readUL 4) s
  let (inum, s2) ← readUL 4 s1
  let (icol, s3) ← readUL 4 s2
  let (rtt, s4) ← readUL 1 s3
  let (rin, s5) ← readSL32 s4
  let (rtp, s6) ← readUL 4 s5
  let (cu, s7) ← readUL 1 s6
  let (cd, s8) ← readUL 1 s7
  let (ity, s9) ← readUL 1 s8
  let (c2, s10) ← readIf v4 (readUL 4) s9
  pure (⟨c1, inum, icol, rtt, rin, rtp, cu, cd, ity, c2⟩, s10)

structure TableDataS where
  real_index : List RealIndex
  column : List ColumnS
  column_names : List String
  real_index_2 : List RealIndex2
  all_indexes : List AllIndex
  index_names : List String
  deriving Repr, DecidableEq

/-- parse_table_data from parsing_primitives.py. -/
def parse_table_data (buffer : Bytes) (index_count real_index_count column_count : Nat)
    (version : Nat) : Except PyErr TableDataS := do
  let v4 := decide (version > 3)
  let s0 : PState := ⟨buffer, 0⟩
  let (ris, s1) ← readArray real_index_count (fun st => do
    let (u1, st1) ← readUL 4 st
    let (irc, st2) ← readUL 4 st1
    let (z, st3) ← readIf v4 (readUL 4) st2
    pure ((⟨u1, irc, z⟩ : RealIndex), st3)) s0
  let (cols, s2) ← readArray column_count (readColumn version) s1
  let (names, s3) ← readArray column_count (readLenString version) s2
  let (ri2, s4) ← readArray real_index_count (readRealIndex2 version) s3
  let (ai, s5) ← readArray index_count (readAllIndex version) s4
  let (inames, _) ← readArray index_count (readLenString version) s5
  pure ⟨ris, cols, names, ri2, ai, inames⟩

structure DataPageHeader where
  data_free_space : Nat
  owner : Nat
  ver4_unknown_dat1 : Option Nat
  record_count : Nat
  record_offsets : List Nat
  deriving Repr, DecidableEq

/-- parse_data_page_header from parsing_primitives.py. -/
def parse_data_page_header (buffer : Bytes) (version : Nat) : Except PyErr DataPageHeader := do
  let s1 ← readConst [1, 1] ⟨buffer, 0⟩
  let (fs, s2) ← readUL 2 s1
  let (owner, s3) ← readUL 4 s2
  let (u, s4) ← readIf (decide (version > 3)) (readUL 4) s3
  let (rc, s5) ← readUL 2 s4
  let (offs, _) ← readArray rc (readUL 2) s5
  pure ⟨fs, owner, u, rc, offs⟩

structure RelMeta where
  variable_length_field_count : Nat
  /-- Present only for Jet 3 (construct `If(version == 3, ...)`). -/
  variable_length_jump_table : Option (List Nat)
  variable_length_field_offsets : List Nat
  var_len_count : Nat
  relative_metadata_end : Int
  deriving Repr, DecidableEq

/-- parse_relative_object_metadata_struct from parsing_primitives.py; the
buffer is the record in reverse.  For Jet 4+ the offset count is masked
with 0xFF and the integers are two-byte big-endian. -/
def parse_relative_object_metadata_struct (buffer : Bytes) (variable_jump_tables_cnt : Nat)
    (version : Nat) : Except PyErr RelMeta := do
  let s0 : PState := ⟨buffer, 0⟩
  if version = 3 then do
    let (cnt, s1) ← readUB 1 s0
    let (jt, s2) ← readArray variable_jump_tables_cnt (readUB 1) s1
    let (offs, s3) ← readArray cnt (readUB 1) s2
    let (vlc, s4) ← readUB 1 s3
    pure ⟨cnt, some jt, offs, vlc, (s4.pos : Int)⟩
  else do
    let (cnt, s1) ← readUB 2 s0
    let (offs, s2) ← readArray (cnt % 256) (readUB 2) s1
    let (vlc, s3) ← readUB 2 s2
    pure ⟨cnt, Option.none, offs, vlc, (s3.pos : Int)⟩

/-- parse_buffer_custom from parsing_primitives.py: parse one integer field
at `position` in `buffer`; `width` is the byte width of the construct type
named by the Python caller (Int8ul/Int16ul/Int32ul). -/
def parse_buffer_custom (buffer : Bytes) (position : Nat) (width : Nat) :
    Except PyErr Nat := do
  let (v, _) ← readUL width ⟨buffer.drop position, 0⟩
  pure v

/-! ## access_parser.py: tables -/

abbrev ParsedTable := List (String × List PyValue)

/-- Per-column external property maps (parse_lvprop output):
column name → property name → value. -/
abbrev ColProps := List (String × List (String × PyValue))

def natEq : Nat → Nat → Bool := fun a b => a == b

def strEq : String → String → Bool := fun a b => a == b

/-- Append under the defaultdict(list) semantics of `parsed_table[k].append(v)`. -/
def tAppend (st : ParsedTable) (name : String) (v : PyValue) : ParsedTable :=
  odSet strEq name ((odGet strEq name st).getD [] ++ [v]) st

structure TableObj where
  value : Bytes
  offset : Nat
  linked_pages : List Bytes := []
  owned_pages : List Bytes := []
  free_space_pages : List Bytes := []
  deriving Repr, DecidableEq

structure AccessTable where
  version : Nat
  page_size : Nat
  props : Option ColProps
  data_pages : List (Nat × Bytes)
  table_defs : List (Nat × Bytes)
  all_pages : List (Nat × Bytes)
  table : TableObj
  columns : List (Nat × ColumnS)
  primary_keys : List String
  table_header : TableHeadS
  deriving Repr, DecidableEq

/-! ### The usage-map reader (_get_usage_map) -/

/-- The inner bit loop of _get_usage_map over one bitmap byte: LSB-first
bits; an out-of-range page number breaks out of the byte.  (The
pageNumberOffset >= 0 guard of the source is always true for natural
indices, so the INVALID_PAGE_NUMBER branch is dead.) -/
def usageBits (start_page : Nat) (end_page : Int) (byteCount : Nat) (b : Nat) :
    Nat → Nat → List Nat
  | 0, _ => []
  | r + 1, i =>
    if b.testBit i then
      let pageNumberOffset := byteCount * 8 + i
      let pageNumber : Int := (start_page : Int) + pageNumberOffset
      if pageNumber < (start_page : Int) ∨ pageNumber > end_page then []
      else (start_page + pageNumberOffset) :: usageBits start_page end_page byteCount b r (i + 1)
    else usageBits start_page end_page byteCount b r (i + 1)

/-- The byte loop of _get_usage_map over the bitmap buffer. -/
def usageLoop (start_page : Nat) (end_page : Int) : Nat → Bytes → List Nat
  | _, [] => []
  | byteCount, b :: rest =>
    (if b ≠ 0 then usageBits start_page end_page byteCount b 8 0 else []) ++
      usageLoop start_page end_page (byteCount + 1) rest

/-- _get_usage_map from access_parser.py: resolve the (page, row) slot via
the record-offset table (offsets masked with 0x1FFF; slot 0 ends at the
page size), then walk the inline bitmap from byte 5 of the slot. -/
def get_usage_map (version page_size : Nat) (data_pages : List (Nat × Bytes))
    (page_num row_num : Nat) : Except PyErr (List Nat) := do
  let offsetRowStart := if version = 3 then 10 else 14
  let table_buffer ←
    match odGet natEq (page_num * page_size) data_pages with
    | some b => pure b
    | Option.none => .error .keyError
  let row_start_offset := offsetRowStart + 2 * row_num
  let row_end_offset := offsetRowStart + 2 * (row_num - 1)
  let rs ← parse_buffer_custom table_buffer row_start_offset 2
  let row_start := rs % 0x2000
  let row_end ←
    if row_num = 0 then pure page_size
    else do
      let re ← parse_buffer_custom table_buffer row_end_offset 2
      pure (re % 0x2000)
  let table_buffer := table_buffer.take row_end
  let _map_type ← parse_buffer_custom table_buffer row_start 1
  let um_start_offset := row_start + 5
  let max_inline_pages : Int := ((row_end : Int) - um_start_offset) * 8
  let start_page ← parse_buffer_custom table_buffer (row_start + 1) 4
  let end_page : Int := (start_page : Int) + max_inline_pages
  let filtered_buffer := table_buffer.drop um_start_offset
  pure (usageLoop start_page end_page 0 filtered_buffer)

/-- The fallible prefix of _get_usage_map: resolve the slot and return the
start page, the inline capacity max_inline_pages, and the bitmap buffer. -/
def usageMapParts (version page_size : Nat) (data_pages : List (Nat × Bytes))
    (page_num row_num : Nat) : Except PyErr (Nat × Int × Bytes) := do
  let offsetRowStart := if version = 3 then 10 else 14
  let table_buffer ←
    match odGet natEq (page_num * page_size) data_pages with
    | some b => pure b
    | Option.none => .error .keyError
  let row_start_offset := offsetRowStart + 2 * row_num
  let row_end_offset := offsetRowStart + 2 * (row_num - 1)
  let rs ← parse_buffer_custom table_buffer row_start_offset 2
  let row_start := rs % 0x2000
  let row_end ←
    if row_num = 0 then pure page_size
    else do
      let re ← parse_buffer_custom table_buffer row_end_offset 2
      pure (re % 0x2000)
  let table_buffer := table_buffer.take row_end
  let _map_type ← parse_buffer_custom table_buffer row_start 1
  let um_start_offset := row_start + 5
  let max_inline_pages : Int := ((row_end : Int) - um_start_offset) * 8
  let start_page ← parse_buffer_custom table_buffer (row_start + 1) 4
  let filtered_buffer := table_buffer.drop um_start_offset
  pure (start_page, max_inline_pages, filtered_buffer)

/-! ### Overflow records (_get_overflow_record) -/

/-- _get_overflow_record from access_parser.py: `page = ptr >> 8`,
`slot = ptr & 0xFF`; a missing page yields None (with a warning), a slot
index out of the offset table is None, bit 15 of the resolved offsets is
masked away. -/
def get_overflow_record (version page_size : Nat) (data_pages : List (Nat × Bytes))
    (record_pointer : Nat) : Except PyErr (Option Bytes) := do
  let record_offset := record_pointer % 256
  let page_num := record_pointer / 256
  match odGet natEq (page_num * page_size) data_pages with
  | Option.none => pure Option.none
  | some record_page => do
    let parsed_data ← parse_data_page_header record_page version
    if record_offset > parsed_data.record_offsets.length then pure Option.none
    else do
      let start0 ← pyListGet parsed_data.record_offsets record_offset
      let start := if start0.testBit 15 then start0 % 4096 else start0
      if record_offset = 0 then pure (some (record_page.drop start))
      else do
        let end0 ← pyListGet parsed_data.record_offsets (record_offset - 1)
        let end1 := if end0.testBit 15 then end0 % 4096 else end0
        pure (some (pySlice record_page (start : Int) (end1 : Int)))

/-! ### TDEF chains (_merge_table_data) -/

/-- The while loop of _merge_table_data.  Fuel bounds the chain length by
the number of table-definition pages plus one; a longer chain repeats a
page, on which the Python loop would not terminate (`nonTermination`). -/
def mergeLoop (table_defs : List (Nat × Bytes)) (page_size : Nat) :
    Nat → Nat → Bytes → Except PyErr Bytes
  | 0, _, _ => .error .nonTermination
  | fuel + 1, next_ptr, acc =>
    if next_ptr = 0 then pure acc
    else
      match odGet natEq (next_ptr * page_size) table_defs with
      | Option.none => .error .typeError
      | some t => do
        let h ← TDEF_HEADER_parse t
        mergeLoop table_defs page_size fuel h.next_page_ptr (acc ++ t.drop h.header_end)

/-- _merge_table_data from access_parser.py; a page number absent from the
table-definition map makes TDEF_HEADER.parse receive None (a TypeError). -/
def merge_table_data (table_defs : List (Nat × Bytes)) (page_size : Nat)
    (first_page : Nat) : Except PyErr Bytes := do
  match odGet natEq (first_page * page_size) table_defs with
  | Option.none => .error .typeError
  | some t => do
    let h ← TDEF_HEADER_parse t
    mergeLoop table_defs page_size (table_defs.length + 1) h.next_page_ptr
      (t.drop h.header_end)

/-! ### Long values (_parse_memo) -/

/-- The LVAL type 2 chain loop of _parse_memo: each overflow record starts
with a 32-bit next-page pointer followed by payload; a missing record makes
`rec_data[:4]` subscript None (TypeError), a short one fails the unpack
(struct.error).  Fuel bounds the chain by the number of distinct
(page, slot) pairs; a longer chain cycles, on which Python would hang. -/
def lval2Loop (version page_size : Nat) (data_pages : List (Nat × Bytes)) :
    Nat → Bytes → Nat → Bytes → Except PyErr Bytes
  | 0, _, _, _ => .error .nonTermination
  | fuel + 1, rec_data, next_page, acc =>
    if next_page ≠ 0 then do
      let acc := acc ++ rec_data.drop 4
      match (← get_overflow_record version page_size data_pages next_page) with
      | Option.none => .error .typeError
      | some rd =>
        if rd.length < 4 then .error .structError
        else lval2Loop version page_size data_pages fuel rd (leNat (rd.take 4)) acc
    else pure (acc ++ rec_data.drop 4)

/-- _parse_memo from access_parser.py.  Bit 31 of memo_length selects the
inline layout, bit 30 a single overflow record (LVAL 1), otherwise a
multi-page chain (LVAL 2).  An empty or missing payload returns Python
None; otherwise the payload is returned raw or decoded as text. -/
def parse_memo (version page_size : Nat) (data_pages : List (Nat × Bytes))
    (relative_obj_data : Bytes) (return_raw : Bool) : Except PyErr PyValue := do
  let parsed_memo ← MEMO_parse relative_obj_data
  let memo_data : Option Bytes ←
    if parsed_memo.memo_length.testBit 31 then do
      let inline_memo_length := parsed_memo.memo_length % 2 ^ 30
      if relative_obj_data.length < parsed_memo.memo_end + inline_memo_length then
        pure (some (relative_obj_data.drop parsed_memo.memo_end))
      else
        pure (some (pySlice relative_obj_data (parsed_memo.memo_end : Int)
          ((parsed_memo.memo_end + inline_memo_length : Nat) : Int)))
    else if parsed_memo.memo_length.testBit 30 then
      get_overflow_record version page_size data_pages parsed_memo.record_pointer
    else do
      match (← get_overflow_record version page_size data_pages parsed_memo.record_pointer) with
      | Option.none => .error .typeError
      | some rec_data =>
        if rec_data.length < 4 then .error .structError
        else do
          let md ← lval2Loop version page_size data_pages (data_pages.length * 256 + 1)
            rec_data (leNat (rec_data.take 4)) []
          pure (some md)
  match memo_data with
  | Option.none => pure .none
  | some md =>
    if md = [] then pure .none
    else if return_raw then pure (.bytes md)
    else parse_type 10 md (some (md.length : Int)) version Option.none

/-! ### Schema assembly (_get_table_columns) -/

/-- Stable ascending insertion by the Nat key (Python sorted is stable;
the keys here are distinct). -/
def insertByKey (x : Nat × α) : List (Nat × α) → List (Nat × α)
  | [] => [x]
  | y :: ys => if x.1 < y.1 then x :: y :: ys else y :: insertByKey x ys

def sortByKey (l : List (Nat × α)) : List (Nat × α) :=
  l.foldl (fun acc x => insertByKey x acc) []

/-- The try-block of _get_table_columns: parse the table head, merge chained
TDEF pages, parse the column/index arrays, and resolve the two usage maps
into owned and free-space page lists (mutating the table object).  Only a
ConstructError is caught by the source; KeyErrors from the page lookups
propagate. -/
def get_table_columns_tryblock (version page_size : Nat)
    (data_pages table_defs all_pages : List (Nat × Bytes)) (table : TableObj) :
    Except PyErr (TableHeadS × TableDataS × TableObj) := do
  let table_header ← parse_table_head table.value version
  let merged_data := table.value.drop table_header.tdef_header_end
  let merged_data ←
    if table_header.TDEF_header.next_page_ptr ≠ 0 then do
      let extra ← merge_table_data table_defs page_size table_header.TDEF_header.next_page_ptr
      pure (merged_data ++ extra)
    else pure merged_data
  let parsed_data ← parse_table_data merged_data table_header.index_count
    table_header.real_index_count table_header.column_count version
  let owned ← get_usage_map version page_size data_pages
    table_header.row_page_map_page_number table_header.row_page_map_row_number
  let owned_pages ← owned.mapM (fun pn =>
    match odGet natEq (pn * page_size) all_pages with
    | some p => Except.ok p
    | Option.none => Except.error PyErr.keyError)
  let free ← get_usage_map version page_size data_pages
    table_header.free_space_page_map_page_number table_header.free_space_page_map_row_number
  let free_pages ← free.mapM (fun pn =>
    match odGet natEq (pn * page_size) all_pages with
    | some p => Except.ok p
    | Option.none => Except.error PyErr.keyError)
  pure (table_header, parsed_data,
    { table with owned_pages := owned_pages, free_space_pages := free_pages })

/-- The primary-key comprehension of _get_table_columns: for every
ALL_INDEXES entry the REAL_INDEX2 at its idx_col_num is indexed (even for
entries later filtered out), then idx_type == 1 slots with col_id other
than 0xFFFF are looked up in the column dictionary. -/
def table_header_pks (column_dict : List (Nat × ColumnS)) (parsed_data : TableDataS) :
    Except PyErr (List String) := do
  let nested ← parsed_data.all_indexes.mapM (fun idx => do
    let ri2 ← pyListGet parsed_data.real_index_2 idx.idx_col_num
    ri2.unk_struct.filterMapM (fun col =>
      if idx.idx_type = 1 ∧ col.col_id ^^^ 0xFFFF ≠ 0 then
        match odGet natEq col.col_id column_dict with
        | some c => Except.ok (some c.col_name_str)
        | Option.none => Except.error PyErr.keyError
      else Except.ok Option.none))
  pure nested.flatten

/-- _get_table_columns from access_parser.py.  `none` is the Python None
returned when the try-block raises a ConstructError; the caller then fails
unpacking it (TypeError).  After the try-block: column names are attached,
the column dictionary is keyed by `column_index - min(column_index)` with a
fallback to `column_id` on collisions, external properties are attached,
and primary-key columns are collected from ALL_INDEXES entries of
idx_type 1 (skipping the 0xFFFF sentinel). -/
def get_table_columns (version page_size : Nat)
    (data_pages table_defs all_pages : List (Nat × Bytes)) (props : Option ColProps)
    (table : TableObj) :
    Except PyErr (Option (List (Nat × ColumnS) × List String × TableHeadS × TableObj)) := do
  match get_table_columns_tryblock version page_size data_pages table_defs all_pages table with
  | .error .constructError => pure Option.none
  | .error e => .error e
  | .ok (table_header, parsed_data, table') => do
    let col_names := parsed_data.column_names
    let columns := (parsed_data.column.zip col_names).map
      (fun (c, n) => { c with col_name_str := n, extra_props := Option.none })
    if columns.isEmpty then .error .valueError
    else do
      let offset := ((columns.map (·.column_index)).min?).getD 0
      let byIndex := columns.foldl
        (fun d c => odSet natEq (c.column_index - offset) c d) []
      let column_dict :=
        if byIndex.length ≠ columns.length then
          columns.foldl (fun d c => odSet natEq c.column_id c d) []
        else byIndex
      let column_dict :=
        match props with
        | some ps =>
          if ps ≠ [] then
            column_dict.map (fun (i, col) =>
              match odGet strEq col.col_name_str ps with
              | some p => (i, { col with extra_props := some p })
              | Option.none => (i, col))
          else column_dict
        | Option.none => column_dict
      let primary_keys ← table_header_pks column_dict parsed_data
      pure (some (column_dict, primary_keys, table_header, table'))

/-- AccessTable construction: `self.columns, self.primary_keys,
self.table_header = self._get_table_columns()` fails to unpack a Python
None with a TypeError. -/
def AccessTable_mk (version page_size : Nat)
    (data_pages table_defs all_pages : List (Nat × Bytes)) (props : Option ColProps)
    (table : TableObj) : Except PyErr AccessTable := do
  match ← get_table_columns version page_size data_pages table_defs all_pages props table with
  | Option.none => .error .typeError
  | some (column_dict, primary_keys, table_header, table') =>
    pure { version := version, page_size := page_size, props := props,
           data_pages := data_pages, table_defs := table_defs, all_pages := all_pages,
           table := table', columns := column_dict, primary_keys := primary_keys,
           table_header := table_header }

/-! ### Row parsing (_parse_row and helpers) -/

/-- _parse_fixed_length_data from access_parser.py.  A column_id strictly
beyond the bit count yields null (unknown-null for booleans); at exactly
the bit count the source indexes past the list (IndexError).  A boolean's
value is the bitmap bit itself.  A fixed_offset beyond the record skips
the column entirely (no value appended); otherwise the value is parsed and
replaced by None when the bitmap bit is clear. -/
def parse_fixed_length_data (version : Nat) (record : Bytes) (column : ColumnS)
    (null_table : List Bool) (st : ParsedTable) : Except PyErr ParsedTable := do
  let column_name := column.col_name_str
  let has_value : Option Bool ←
    if column.column_id > null_table.length then
      if column.type = 1 then pure Option.none else pure (some false)
    else
      match null_table.get? column.column_id with
      | some b => pure (some b)
      | Option.none => .error .indexError
  if column.type = 1 then
    pure (tAppend st column_name
      (match has_value with
       | some b => .bool b
       | Option.none => .none))
  else
    if column.fixed_offset > record.length then pure st
    else do
      let buf := record.drop column.fixed_offset
      let props :=
        match column.extra_props with
        | some [] => Option.none
        | p => p
      let parsed ← parse_type column.type buf Option.none version props
      if has_value ≠ some true then pure (tAppend st column_name .none)
      else pure (tAppend st column_name parsed)

/-- Run an Except, turning a ConstructError into `none`. -/
def catchConstructOpt (x : Except PyErr α) : Except PyErr (Option α) :=
  match x with
  | .error .constructError => .ok Option.none
  | .error e => .error e
  | .ok v => .ok (some v)

/-- _parse_dynamic_length_records_metadata from access_parser.py.  For
Jet 4+ the trailer is parsed directly (uncaught failures propagate).  For
Jet 3 a parse failure is logged and yields None; a field count that
disagrees with the schema's variable-column count triggers a best-effort
rescan of the first ten trailer bytes for the expected count byte, after
which relative_metadata_end is shifted by the rescan start (keeping the old
metadata when the rescan itself fails to parse). -/
def parse_dynamic_length_records_metadata (version : Nat) (variable_columns : Nat)
    (reverse_record : Bytes) (original_record : Bytes) (null_table_length : Int) :
    Except PyErr (Option RelMeta) := do
  if version > 3 then do
    let rr := pySliceFrom reverse_record null_table_length
    let m ← parse_relative_object_metadata_struct rr 0 version
    pure (some m)
  else do
    let variable_length_jump_table_cnt := (original_record.length - 1) / 256
    let rr := pySliceFrom reverse_record null_table_length
    let first ← catchConstructOpt
      (parse_relative_object_metadata_struct rr variable_length_jump_table_cnt version)
    let rel : Option RelMeta := first.map (fun m =>
      { m with relative_metadata_end := m.relative_metadata_end + null_table_length })
    match rel with
    | Option.none => pure Option.none
    | some m =>
      if m.variable_length_field_count ≠ variable_columns then do
        if variable_columns > 255 then .error .valueError
        else
          let metadata_start := pyFind rr variable_columns
          if metadata_start ≠ -1 ∧ metadata_start < 10 then do
            let rr2 := pySliceFrom rr metadata_start
            let retry ← catchConstructOpt
              (parse_relative_object_metadata_struct rr2 variable_length_jump_table_cnt version)
            let base := retry.getD m
            pure (some { base with
              relative_metadata_end := base.relative_metadata_end + metadata_start })
          else pure Option.none
      else pure (some m)

/-- One variable-length column of _parse_dynamic_length_data: pick the
value for the column's segment. -/
def dynFieldValue (version page_size : Nat) (data_pages : List (Nat × Bytes))
    (column : ColumnS) (relative_obj_data : Bytes) : Except PyErr PyValue := do
  if column.type = 12 then
    match parse_memo version page_size data_pages relative_obj_data false with
    | .error .constructError => pure (.bytes relative_obj_data)
    | .error e => .error e
    | .ok v => pure v
  else if column.type = 11 then
    match parse_memo version page_size data_pages relative_obj_data true with
    | .error .constructError => pure (.bytes relative_obj_data)
    | .error e => .error e
    | .ok v => pure v
  else if column.type = 16 then
    if relative_obj_data.length ≠ 17 then pure (.bytes relative_obj_data)
    else do
      let scale ← column.various.scaleOrDefault
      let s ← numeric_to_string relative_obj_data scale
      pure (.str s)
  else
    parse_type column.type relative_obj_data (some (relative_obj_data.length : Int))
      version Option.none

/-- The column loop of _parse_dynamic_length_data, threading the Jet-3
jump-table offset accumulated across columns in iteration order. -/
def dynLoop (version page_size : Nat) (data_pages : List (Nat × Bytes))
    (original_record : Bytes) (meta : RelMeta) (null_table : List Bool) :
    List (Nat × ColumnS) → Nat → ParsedTable → Except PyErr ParsedTable
  | [], _, st => pure st
  | (_, column) :: rest, jta, st => do
    let col_name := column.col_name_str
    let has_value ←
      if column.column_id > null_table.length then pure false
      else pyListGet null_table column.column_id
    if ¬has_value then
      dynLoop version page_size data_pages original_record meta null_table rest jta
        (tAppend st col_name .none)
    else do
      let jta :=
        if version = 3 ∧
            (meta.variable_length_jump_table.getD []).contains column.variable_column_number
        then jta + 0x100 else jta
      let rel_start ← pyListGet meta.variable_length_field_offsets column.variable_column_number
      let rel_end ←
        if column.variable_column_number + 1 = meta.variable_length_field_offsets.length then
          pure meta.var_len_count
        else pyListGet meta.variable_length_field_offsets (column.variable_column_number + 1)
      if rel_start = rel_end then
        dynLoop version page_size data_pages original_record meta null_table rest jta
          (tAppend st col_name (.str ""))
      else do
        let relative_obj_data :=
          pySlice original_record ((rel_start + jta : Nat) : Int) ((rel_end + jta : Nat) : Int)
        let parsed_type ← dynFieldValue version page_size data_pages column relative_obj_data
        dynLoop version page_size data_pages original_record meta null_table rest jta
          (tAppend st col_name parsed_type)

/-- _parse_row from access_parser.py: read the field count (one byte in
Jet 3, two in Jet 4+, signed), locate the null bitmap as the trailing
`(field_count + 7) // 8` bytes, run the fixed-length pass over the columns
in dictionary order, then the variable-length pass over the remaining
columns sorted by key.  A failed bitmap bound check or a failed trailer
parse silently skips the rest of the record. -/
def parse_row (t : AccessTable) (record0 : Bytes) (st : ParsedTable) :
    Except PyErr ParsedTable := do
  let original_record := record0
  let reverse_record := record0.reverse
  let (field_count, record) ←
    if t.version > 3 then
      if record0.length < 2 then .error .structError
      else pure (toSigned 16 (leNat (record0.take 2)), record0.drop 2)
    else
      if record0.length < 1 then .error .structError
      else pure (toSigned 8 (leNat (record0.take 1)), record0.drop 1)
  let null_table_len : Int := pyDiv (field_count + 7) 8
  if null_table_len ≠ 0 ∧ null_table_len < (original_record.length : Int) then do
    let nt_bytes := pySliceFrom record (-null_table_len)
    let null_table := (List.range (nt_bytes.length * 8)).map
      (fun i => (nt_bytes.getD (i / 8) 0).testBit (i % 8))
    let (st, rel_map) ← t.columns.foldlM
      (fun (acc : ParsedTable × List (Nat × ColumnS)) ic => do
        let (st, m) := acc
        if ¬ic.2.column_flags.fixed_length then pure (st, m ++ [ic])
        else do
          let st' ← parse_fixed_length_data t.version record ic.2 null_table st
          pure (st', m))
      (st, [])
    if rel_map ≠ [] then do
      let rel_sorted := sortByKey rel_map
      let metaO ← parse_dynamic_length_records_metadata t.version
        t.table_header.variable_columns reverse_record original_record null_table_len
      match metaO with
      | Option.none => pure st
      | some meta =>
        if meta.variable_length_field_offsets ≠ [] then
          dynLoop t.version t.page_size t.data_pages original_record meta null_table
            rel_sorted 0 st
        else pure st
    else pure st
  else pure st

/-! ### Page iteration (AccessTable.parse) -/

/-- The record-slot loop of AccessTable.parse, threading the running
previous offset (`0` doubles for the initial Python None, since the source
only tests the cursor for falsiness).  Bit 15 marks a deleted slot whose
low 12 bits advance the cursor; bit 14 an overflow pointer (four
little-endian bytes read at the masked offset, a short read failing the
unpack); otherwise the record runs from the slot offset to the cursor, or
to the end of the page data when the cursor is unset or zero.  Empty
records and unresolved overflow records contribute nothing. -/
def slotLoop (t : AccessTable) (original_data : Bytes) :
    List Nat → Nat → ParsedTable → Except PyErr ParsedTable
  | [], _, st => pure st
  | rec_offset :: rest, last_offset, st =>
    if rec_offset.testBit 15 then
      slotLoop t original_data rest (rec_offset % 4096) st
    else if rec_offset.testBit 14 then do
      let rec_ptr_offset := rec_offset % 4096
      let ptrBytes := pySlice original_data (rec_ptr_offset : Int) ((rec_ptr_offset + 4 : Nat) : Int)
      if ptrBytes.length < 4 then .error .structError
      else do
        let overflow_rec_ptr := leNat ptrBytes
        let record ← get_overflow_record t.version t.page_size t.data_pages overflow_rec_ptr
        let st' ←
          match record with
          | some r => if r ≠ [] then parse_row t r st else pure st
          | Option.none => pure st
        slotLoop t original_data rest rec_ptr_offset st'
    else do
      let record :=
        if last_offset = 0 then original_data.drop rec_offset
        else pySlice original_data (rec_offset : Int) (last_offset : Int)
      let st' ← if record ≠ [] then parse_row t record st else pure st
      slotLoop t original_data rest rec_offset st'

/-- create_empty_table from access_parser.py: recompute the columns and map
every column name to an empty list. -/
def create_empty_table (t : AccessTable) : Except PyErr ParsedTable := do
  match ← get_table_columns t.version t.page_size t.data_pages t.table_defs t.all_pages
      t.props t.table with
  | Option.none => .error .typeError
  | some (columns, _, _, _) =>
    pure (columns.foldl (fun st ic => odSet strEq ic.2.col_name_str [] st) [])

/-- AccessTable.parse from access_parser.py: an empty owned-page list
yields the empty table; otherwise every owned page is parsed as a data
page and its record slots are walked, and the accumulated column lists are
finally reordered by ascending column key. -/
def AccessTable.parse (t : AccessTable) : Except PyErr ParsedTable := do
  if t.table.owned_pages.isEmpty then create_empty_table t
  else do
    let st ← t.table.owned_pages.foldlM
      (fun st data_chunk => do
        let parsed_data ← parse_data_page_header data_chunk t.version
        slotLoop t data_chunk parsed_data.record_offsets 0 st)
      ([] : ParsedTable)
    let columns_sorted := sortByKey t.columns
    pure (columns_sorted.foldl
      (fun out ic =>
        odSet strEq ic.2.col_name_str ((odGet strEq ic.2.col_name_str st).getD []) out)
      [])

/-! ## access_parser.py: long-value property blobs (LVPROP) -/

structure LvName where
  name_length : Nat
  name : String
  deriving Repr, DecidableEq

structure LvData where
  data_length : Nat
  ddl_flag : Nat
  type : Nat
  name_index : Nat
  only_data_length : Nat
  actual_data : Bytes
  deriving Repr, DecidableEq

structure LvValue where
  val_length : Nat
  name_length : Nat
  column_name : String
  data : List LvData
  left : Bytes
  deriving Repr, DecidableEq

/-- The payload of an LVPROP chunk: a name pool for chunk type 128, a
column-properties record for types 0 and 1.  The construct default branch
`Bytes(length - 4)` inside a `length - 6` window can never succeed, so
other chunk types always fail (ending the surrounding GreedyRange). -/
inductive LvChunkData where
  | names (l : List LvName)
  | value (v : LvValue)
  deriving Repr, DecidableEq

structure LvChunk where
  length : Nat
  chunk_type : Nat
  data : LvChunkData
  deriving Repr, DecidableEq

structure LvProp where
  magic : Bytes
  chunks : List LvChunk
  leftover : Bytes
  deriving Repr, DecidableEq

/-- construct `GreedyRange(subcon)`: repeat until a failure, keeping the
successes.  Fuel bounds the iteration count by the stream length; the
sub-parsers here always consume at least one byte, so a non-advancing
success (on which construct itself would not terminate) stops the range. -/
def greedyRange (f : PState → Except PyErr (α × PState)) :
    Nat → PState → List α × PState
  | 0, s => ([], s)
  | fuel + 1, s =>
    match f s with
    | .error _ => ([], s)
    | .ok (x, s') =>
      if s'.pos ≤ s.pos then ([], s)
      else
        let r := greedyRange f fuel s'
        (x :: r.1, r.2)

/-- LVPROP_CHUNK_NAMES_INT: a length-prefixed UTF-16 name. -/
def readLvName (s : PState) : Except PyErr (LvName × PState) := do
  let (n, s1) ← readUL 2 s
  let (nm, s2) ← readPaddedStringUtf16 n s1
  pure (⟨n, nm⟩, s2)

/-- LVPROP_DATA: one property record. -/
def readLvData (s : PState) : Except PyErr (LvData × PState) := do
  let (dl, s1) ← readUL 2 s
  let (ddl, s2) ← readUL 1 s1
  let (ty, s3) ← readUL 1 s2
  let (ni, s4) ← readUL 2 s3
  let (odl, s5) ← readUL 2 s4
  let (ad, s6) ← readBytesC odl s5
  pure (⟨dl, ddl, ty, ni, odl, ad⟩, s6)

/-- LVPROP_VALUE, parsed inside a chunk's prefixed window. -/
def readLvValue (sub : Bytes) : Except PyErr LvValue := do
  let (vl, s1) ← readUL 4 ⟨sub, 0⟩
  let (nl, s2) ← readUL 2 s1
  let (cn, s3) ← readPaddedStringUtf16 nl s2
  let r := greedyRange readLvData (sub.length + 1) s3
  pure ⟨vl, nl, cn, r.1, r.2.data.drop r.2.pos⟩

/-- LVPROP_CHUNK: length, type, and a `length - 6` byte window parsed per
chunk type. -/
def readLvChunk (s : PState) : Except PyErr (LvChunk × PState) := do
  let (length, s1) ← readUL 4 s
  let (ctype, s2) ← readUL 2 s1
  let n : Int := (length : Int) - 6
  if n < 0 then .error .constructError
  else do
    let (sub, s3) ← readBytesC n.toNat s2
    if ctype = 128 then
      let r := greedyRange readLvName (sub.length + 1) ⟨sub, 0⟩
      pure (⟨length, ctype, .names r.1⟩, s3)
    else if ctype = 0 ∨ ctype = 1 then do
      let v ← readLvValue sub
      pure (⟨length, ctype, .value v⟩, s3)
    else .error .constructError

/-- LVPROP from parsing_primitives.py. -/
def LVPROP_parse (buffer : Bytes) : Except PyErr LvProp := do
  let (magic, s1) ← readBytesC 4 ⟨buffer, 0⟩
  let r := greedyRange readLvChunk (buffer.length + 1) s1
  pure ⟨magic, r.1, r.2.data.drop r.2.pos⟩

/-- parse_lvprop from access_parser.py: None on a ConstructError or an
empty chunk list; the first chunk must carry the name pool (an attribute
access that fails on a value chunk); type-1 chunks contribute per-column
property maps, skipping empty column names and out-of-range name indices.
construct can only parse bytes; other stored values raise a TypeError. -/
def parse_lvprop (version : Nat) (lvprop_raw : PyValue) : Except PyErr (Option ColProps) := do
  match lvprop_raw with
  | .bytes raw =>
    match LVPROP_parse raw with
    | .error .constructError => pure Option.none
    | .error e => .error e
    | .ok parsed =>
      match parsed.chunks with
      | [] => pure Option.none
      | c0 :: _ => do
        let table_names ←
          match c0.data with
          | .names ns => pure (ns.map (·.name))
          | _ => .error .attributeError
        let chunk_type_one := parsed.chunks.filter (fun c => c.chunk_type == 1)
        let recon ← chunk_type_one.foldlM
          (fun recon chunk => do
            match chunk.data with
            | .value v =>
              if v.column_name = "" then pure recon
              else do
                let data_values ← v.data.foldlM
                  (fun dv d => do
                    let val ← parse_type d.type d.actual_data Option.none version Option.none
                    match table_names.get? d.name_index with
                    | some nm => pure (odSet strEq nm val dv)
                    | Option.none => pure dv)
                  ([] : List (String × PyValue))
                pure (odSet strEq v.column_name data_values recon)
            | _ => pure recon)
          ([] : ColProps)
        pure (some recon)
  | _ => .error .typeError

/-! ## access_parser.py: the database facade -/

/-- The value of `self.extra_props`: Python None when MSysObjects is
missing or empty, the literal empty list when it has no Name or LvProp
column values, and otherwise a dict from table name to its parsed LVPROP
properties. -/
instance : DecidableEq (PyValue × Option ColProps) := instDecidableEqProd

inductive ExtraProps where
  | pyNone
  | pyList
  | dict (d : List (PyValue × Option ColProps))
  deriving Repr, DecidableEq

structure AccessParserS where
  db_data : Bytes
  version : Nat
  page_size : Nat
  table_defs : List (Nat × Bytes)
  data_pages : List (Nat × Bytes)
  all_pages : List (Nat × Bytes)
  tables_with_data : List (Nat × TableObj)
  catalog : List (PyValue × PyValue)
  extra_props : ExtraProps
  deriving Repr, DecidableEq

/-- _parse_file_header from access_parser.py: a ConstructError on the
ACCESSHEADER becomes the fatal "not a valid access database" ValueError;
jet_version 1, 2, 3 select versions 4, 5, 2010 with 0x1000 pages, and
every other value (0 included, with an error log when unknown) falls back
to version 3 with 0x800 pages. -/
def parse_file_header (db_data : Bytes) : Except PyErr (Nat × Nat) :=
  match ACCESSHEADER_parse db_data with
  | .error .constructError => .error .notValidDb
  | .error e => .error e
  | .ok head =>
    let v := head.jet_version
    if v = 1 then .ok (4, 0x1000)
    else if v = 2 then .ok (5, 0x1000)
    else if v = 3 then .ok (2010, 0x1000)
    else .ok (3, 0x800)

/-- _link_tables_to_data from access_parser.py: for every data page whose
header parses, link it to the table-definition page its owner field points
at; header failures are logged and skipped. -/
def link_tables_to_data (version page_size : Nat)
    (data_pages table_defs : List (Nat × Bytes)) : List (Nat × TableObj) :=
  data_pages.foldl
    (fun twd od =>
      match parse_data_page_header od.2 version with
      | .error _ => twd
      | .ok parsed_dp =>
        let page_offset := parsed_dp.owner * page_size
        match odGet natEq page_offset table_defs with
        | Option.none => twd
        | some table_page_value =>
          let obj := (odGet natEq page_offset twd).getD
            { value := table_page_value, offset := page_offset }
          odSet natEq page_offset
            { obj with linked_pages := obj.linked_pages ++ [od.2] } twd)
    []

def SYSTEM_TABLE_FLAGS : List Int := [-0x80000000, -0x00000002, 0x80000000, 0x00000002]

/-- Fetch a required column of the catalog dict (KeyError when absent). -/
def catalogColumn (catalog : ParsedTable) (name : String) : Except PyErr (List PyValue) :=
  match odGet strEq name catalog with
  | some l => .ok l
  | Option.none => .error .keyError

/-- _parse_catalog from access_parser.py: the catalog table lives in the
data linked to the page at offset `2 * page_size` (a KeyError when
absent); user tables are the Type == 1 entries whose Flags avoid the
system set, and MSysObjects is always retained. -/
def parse_catalog (version page_size : Nat)
    (data_pages table_defs all_pages : List (Nat × Bytes))
    (tables_with_data : List (Nat × TableObj)) :
    Except PyErr (List (PyValue × PyValue)) := do
  let catalog_page ←
    match odGet natEq (2 * page_size) tables_with_data with
    | some p => pure p
    | Option.none => .error .keyError
  let access_table ← AccessTable_mk version page_size data_pages table_defs all_pages
    Option.none catalog_page
  let catalog ← AccessTable.parse access_table
  let names ← catalogColumn catalog "Name"
  (names.enum.foldlM
    (fun tm (p : Nat × PyValue) => do
      let (i, table_name) := p
      let tm ←
        if pyEq table_name (.str "MSysObjects") then do
          let ids ← catalogColumn catalog "Id"
          let idv ← pyListGet ids i
          pure (odSet pyEq table_name idv tm)
        else pure tm
      let types ← catalogColumn catalog "Type"
      let tyv ← pyListGet types i
      if pyEq tyv (.int 1) then do
        let flags ← catalogColumn catalog "Flags"
        let fl ← pyListGet flags i
        if ¬(SYSTEM_TABLE_FLAGS.any (fun sv => pyEq fl (.int sv))) then do
          let ids ← catalogColumn catalog "Id"
          let idv ← pyListGet ids i
          pure (odSet pyEq table_name idv tm)
        else pure tm
      else pure tm)
    [])

/-- Lookup in a Nat-keyed page map by a Python integer. -/
def natKeyGet (d : List (Nat × α)) (k : Int) : Option α :=
  if k < 0 then Option.none else odGet natEq k.toNat d

/-- get_table from access_parser.py: a name missing from the catalog (or
mapping to a falsy offset) returns None after an error log; a table
without data pages gets a fresh TableObj from its table definition;
external properties are attached for tables other than MSysObjects (an
`in` test that raises TypeError when extra_props is Python None).  Ids are
int32 catalog values; a non-integer Id (degenerate catalogs only) is
modelled as a TypeError. -/
def get_table (st : AccessParserS) (table_name : PyValue) :
    Except PyErr (Option AccessTable) := do
  match odGet pyEq table_name st.catalog with
  | Option.none => pure Option.none
  | some tov =>
    if ¬pyTruthy tov then pure Option.none
    else do
      let toi : Int ←
        match tov with
        | .int i => pure i
        | .bool b => pure (if b then (1 : Int) else 0)
        | _ => .error .typeError
      let table_offset : Int := toi * st.page_size
      let tbl : Option TableObj :=
        match natKeyGet st.tables_with_data table_offset with
        | some t => some t
        | Option.none =>
          match natKeyGet st.table_defs table_offset with
          | some td => some { value := td, offset := table_offset.toNat }
          | Option.none => Option.none
      match tbl with
      | Option.none => pure Option.none
      | some table => do
        let props : Option ColProps ←
          if ¬pyEq table_name (.str "MSysObjects") then
            match st.extra_props with
            | .pyNone => .error .typeError
            | .pyList => pure Option.none
            | .dict d =>
              match odGet pyEq table_name d with
              | some p => pure p
              | Option.none => pure Option.none
          else pure Option.none
        let at_ ← AccessTable_mk st.version st.page_size st.data_pages st.table_defs
          st.all_pages props table
        pure (some at_)

/-- parse_table from access_parser.py: `self.get_table(name).parse()` —
calling .parse() on the None of a failed lookup raises AttributeError. -/
def parse_table (st : AccessParserS) (table_name : PyValue) : Except PyErr ParsedTable := do
  match ← get_table st table_name with
  | Option.none => .error .attributeError
  | some at_ => AccessTable.parse at_

/-- parse_msys_table from access_parser.py: None when MSysObjects parses to
an empty mapping, the empty list when its Name or LvProp values are falsy,
otherwise each truthy LvProp blob is parsed into per-column properties. -/
def parse_msys_table (st : AccessParserS) : Except PyErr ExtraProps := do
  let msys_table ← parse_table st (.str "MSysObjects")
  if msys_table.isEmpty then pure .pyNone
  else
    let namesO := (odGet strEq "Name" msys_table).getD []
    let lvO := (odGet strEq "LvProp" msys_table).getD []
    if namesO.isEmpty ∨ lvO.isEmpty then pure .pyList
    else do
      let d ← (namesO.zip lvO).foldlM
        (fun d kv =>
          if pyTruthy kv.2 then do
            let p ← parse_lvprop st.version kv.2
            pure (odSet pyEq kv.1 p d)
          else pure d)
        []
      pure (.dict d)

/-- AccessParser construction from a byte image: file header and version
detection, page categorization, owner-based table/data linking, catalog
parsing from the page at index 2, then MSysObjects property extraction. -/
def accessInit (db_data : Bytes) : Except PyErr AccessParserS := do
  let vp ← parse_file_header db_data
  let (table_defs, data_pages, all_pages) := categorize_pages db_data vp.2
  let tables_with_data := link_tables_to_data vp.1 vp.2 data_pages table_defs
  let catalog ← parse_catalog vp.1 vp.2 data_pages table_defs all_pages tables_with_data
  let st0 : AccessParserS :=
    { db_data := db_data, version := vp.1, page_size := vp.2, table_defs := table_defs,
      data_pages := data_pages, all_pages := all_pages,
      tables_with_data := tables_with_data, catalog := catalog,
      extra_props := .pyNone }
  let ep ← parse_msys_table st0
  pure { st0 with extra_props := ep }

/-- The composed public pipeline: construct the database from a byte image
and materialize one table by name. -/
def parseTableFromBytes (db_data : Bytes) (table_name : String) :
    Except PyErr ParsedTable := do
  let st ← accessInit db_data
  parse_table st (.str table_name)

/-! ## Claim-support definitions

Derived views of the embedded functions, used to state the claims. -/

/-- The record extraction performed by the slot loop of AccessTable.parse,
with the row parsing stripped away: the list of record byte ranges the
loop hands to _parse_row, in order. -/
def pageRecords (version page_size : Nat) (data_pages : List (Nat × Bytes))
    (original_data : Bytes) : List Nat → Nat → Except PyErr (List Bytes)
  | [], _ => pure []
  | rec_offset :: rest, last_offset =>
    if rec_offset.testBit 15 then
      pageRecords version page_size data_pages original_data rest (rec_offset % 4096)
    else if rec_offset.testBit 14 then do
      let rec_ptr_offset := rec_offset % 4096
      let ptrBytes := pySlice original_data (rec_ptr_offset : Int) ((rec_ptr_offset + 4 : Nat) : Int)
      if ptrBytes.length < 4 then .error .structError
      else do
        let record ← get_overflow_record version page_size data_pages (leNat ptrBytes)
        let rs ← pageRecords version page_size data_pages original_data rest rec_ptr_offset
        pure ((match record with
          | some r => if r ≠ [] then [r] else []
          | Option.none => []) ++ rs)
    else do
      let record :=
        if last_offset = 0 then original_data.drop rec_offset
        else pySlice original_data (rec_offset : Int) (last_offset : Int)
      let rs ← pageRecords version page_size data_pages original_data rest rec_offset
      pure ((if record ≠ [] then [record] else []) ++ rs)

/-- The rows contributed by a single record slot (C1's per-slot
specification): a deleted slot contributes nothing; an overflow slot
contributes the record its pointer resolves to when that record is
nonempty; a normal slot contributes its byte span when nonempty, bounded
by the running cursor, or by the end of the page when the cursor is unset
or zero. -/
def slotContribution (version page_size : Nat) (data_pages : List (Nat × Bytes))
    (original_data : Bytes) (rec_offset last_offset : Nat) : Except PyErr (List Bytes) :=
  if rec_offset.testBit 15 then pure []
  else if rec_offset.testBit 14 then do
    let rec_ptr_offset := rec_offset % 4096
    let ptrBytes := pySlice original_data (rec_ptr_offset : Int) ((rec_ptr_offset + 4 : Nat) : Int)
    if ptrBytes.length < 4 then .error .structError
    else do
      let record ← get_overflow_record version page_size data_pages (leNat ptrBytes)
      pure (match record with
        | some r => if r ≠ [] then [r] else []
        | Option.none => [])
  else
    let record :=
      if last_offset = 0 then original_data.drop rec_offset
      else pySlice original_data (rec_offset : Int) (last_offset : Int)
    pure (if record ≠ [] then [record] else [])

/-- The cursor update of one record slot (C1's per-slot specification):
deleted and overflow slots advance the cursor to their low 12 bits, a
normal slot to its offset. -/
def nextCursor (rec_offset _last_offset : Nat) : Nat :=
  if rec_offset.testBit 15 then rec_offset % 4096
  else if rec_offset.testBit 14 then rec_offset % 4096
  else rec_offset

/-- The post-sign part of the decimal parser: digits, an optional dot and
fraction digits. -/
def parseDecimalTail (sgn : ℚ) (rest : List Char) : Option ℚ :=
  let intPart := rest.takeWhile isDigitChar
  let rest2 := rest.drop intPart.length
  match rest2 with
  | [] =>
    if intPart.isEmpty then Option.none
    else some (sgn * (digitsVal intPart : ℚ))
  | '.' :: fracPart =>
    if fracPart.all isDigitChar ∧ ¬ intPart.isEmpty then
      some (sgn * ((digitsVal intPart : ℚ) +
        (digitsVal fracPart : ℚ) / (10 : ℚ) ^ fracPart.length))
    else Option.none
  | _ => Option.none

/-- A decimal-string parser for the C6 round-trip: an optional minus sign,
digits, an optional dot and fraction digits (at least one digit in all).
Written from the specification, to be compared with numeric_to_string. -/
def parseDecimalQ (s : String) : Option ℚ :=
  match s.toList with
  | '-' :: r => parseDecimalTail (-1) r
  | r => parseDecimalTail 1 r

/-- Split a byte string at single NUL bytes (Python-style split: every NUL
ends a segment, and the final segment is whatever follows the last NUL). -/
def splitAtZero : Bytes → List Bytes
  | [] => [[]]
  | 0 :: rest => [] :: splitAtZero rest
  | b :: rest =>
    match splitAtZero rest with
    | seg :: segs => (b :: seg) :: segs
    | [] => [[b]]

/-- Decode the NUL-separated segments of a compressed-text payload with
alternating modes, the first segment compressed (C7's specification of the
segment framing). -/
def decodeSegmentsAlternating (version : Nat) (segs : List Bytes) (mode : Bool) : String :=
  match segs with
  | [] => ""
  | seg :: rest =>
    decodeTextSegment seg 0 seg.length mode version ++
      decodeSegmentsAlternating version rest (!mode)

/-- Per-record, per-column contribution: the list of values a single
record's parse appends to one column, read off a run from the empty
table. -/
def rowContribution (t : AccessTable) (record : Bytes) (name : String) : List PyValue :=
  match parse_row t record [] with
  | .ok st => (odGet strEq name st).getD []
  | .error _ => []

/-! ## Concrete fixtures

Hand-built pages exercising the embedding at concrete inputs (Jet 3,
page size 0x800; the pages themselves are short partial pages). -/

def patchBytes (base : Bytes) (ps : List (Nat × Nat)) : Bytes :=
  ps.foldl (fun b iv => b.set iv.1 iv.2) base

/-- A table-definition page for a two-column table "T": int32 columns "A"
(column_id 0, fixed_offset 0) and "B" (column_id 1, fixed_offset 0x7F8),
no indexes, usage maps in slot 0 of pages 1 (row map) and 4 (free map). -/
def fixTdefPage : Bytes :=
  patchBytes (List.replicate 96 0)
    [(0, 2), (1, 1),
     (20, 0x4E), (21, 2), (25, 2), (36, 1), (40, 4),
     (43, 4), (56, 1), (59, 4),
     (61, 4), (62, 1), (66, 1), (74, 1), (75, 0xF8), (76, 7), (77, 4),
     (79, 1), (80, 65), (81, 1), (82, 66)]

/-- A data page holding the row-map usage bitmap in slot 0 (slot offset 20,
start_page 0, bitmap byte 0x08 marking page 3).  Pages shorter than the
page size occur as the final partial page of an image whose length is not
a page-size multiple (the source keeps them with a warning). -/
def fixMapPage : Bytes :=
  patchBytes (List.replicate 32 0) [(0, 1), (1, 1), (10, 20), (25, 8)]

/-- A data page holding the free-space usage bitmap in slot 0 (all clear). -/
def fixFreePage : Bytes :=
  patchBytes (List.replicate 32 0) [(0, 1), (1, 1), (10, 20)]

/-- The data page of table "T": one record slot at offset 14; the record
runs to the page end, with field count 2, column A's int32 value 42 at its
start and the null bitmap 0x03 in the final byte. -/
def fixDataPage : Bytes :=
  patchBytes (List.replicate 64 0)
    [(0, 1), (1, 1), (4, 5), (8, 1), (10, 14), (14, 2), (15, 42), (63, 3)]

/-- A database state whose catalog maps "T" to the table definition above
(page 5), used for table-level evaluation. -/
def fixDb : AccessParserS :=
  { db_data := [], version := 3, page_size := 0x800,
    table_defs := [(0x2800, fixTdefPage)],
    data_pages := [(0x800, fixMapPage), (0x1800, fixDataPage), (0x2000, fixFreePage)],
    all_pages := [(0x800, fixMapPage), (0x1800, fixDataPage), (0x2000, fixFreePage),
                  (0x2800, fixTdefPage)],
    tables_with_data := [],
    catalog := [(.str "T", .int 5)],
    extra_props := .pyList }

/-- A 135-byte image that is nothing but a well-formed file header
(jet_version 0, hence Jet 3): no catalog page exists. -/
def headerOnlyImage : Bytes := [0, 1, 0, 0, 0, 0, 0, 0, 0] ++ List.replicate 126 0

/-- A data page whose first slot is deleted with low bits 0x12 and whose
second slot is a normal record at offset 14: the second record is bounded
by the deleted slot's low bits, not by the page end. -/
def fixSlotPage : Bytes :=
  [1, 1, 0, 0, 0, 0, 0, 0, 2, 0, 0x12, 0x80, 0x0E, 0x00, 10, 20, 30, 40, 50, 60]

set_option maxRecDepth 4000

/-! ## Claim theorems -/

/-- A fixed-length boolean column with column_id 8, whose value lives
exactly one position past an eight-bit null bitmap. -/
def fixBoolCol : ColumnS :=
  { type := 1, ver4_unknown_3 := Option.none, column_id := 8,
    variable_column_number := 0, column_index := 0, various := .dec3 0 0 0 0,
    column_flags :=
      { hyperlink := false, auto_GUID := false, unk_1 := false, replication := false,
        unk_2 := false, autonumber := false, can_be_null := true, fixed_length := true,
        extra_v4 := [] },
    ver4_unknown_4 := Option.none, fixed_offset := 0, length := 1,
    col_name_str := "Flag" }

/-- The segments list with a partial first segment prepended: the bytes
scanned since the last NUL, to be completed by the first split segment. -/
def prependFirst (pre : Bytes) : List Bytes → List Bytes
  | [] => [pre]
  | seg :: segs => (pre ++ seg) :: segs

/-- C5: the datetime decoder reinterprets the stored 64-bit integer as a
float64 counting days since 1899-12-30 with the fractional part as
time-of-day: bit pattern 0 (double 0.0, the epoch) decodes to
"(Empty Date)", the bit pattern of 1.5 decodes to "1899-12-31 12:00:00",
and the bit pattern of 2^30 (a day count beyond year 9999) decodes to
"(Invalid Date)". -/
theorem c5_datetime_decode :
    mdb_date_to_readable 0 = .ok "(Empty Date)" ∧
    f64ToRat 4609434218613702656 = some (3 / 2) ∧
    mdb_date_to_readable 4609434218613702656 = .ok "1899-12-31 12:00:00" ∧
    f64ToRat 4742290407621132288 = some 1073741824 ∧
    mdb_date_to_readable 4742290407621132288 = .ok "(Invalid Date)" := by
  refine ⟨by decide, by norm_num [f64ToRat], by decide, by norm_num [f64ToRat], by decide⟩

/-- C8: the code does not return an empty result for a missing table name —
get_table returns Python None after the warning, and parse_table calls
.parse() on it, raising AttributeError. -/
theorem c8_missing_table_raises (st : AccessParserS) (name : PyValue)
    (h : odGet pyEq name st.catalog = Option.none) :
    parse_table st name = .error .attributeError := by
  simp [parse_table, get_table, h]

/-- C8 witness: a concrete database state and missing name. -/
theorem c8_missing_table_raises_witness :
    parse_table fixDb (.str "Missing") = .error .attributeError :=
  c8_missing_table_raises fixDb (.str "Missing") (by decide)

/-- C9 counterexample: an image whose file header parses (135 bytes of
valid header, nothing else) on which construction still raises — the
catalog lookup at offset 2 * page_size fails with KeyError. -/
theorem c9_counterexample :
    parse_file_header headerOnlyImage = .ok (3, 0x800) ∧
    accessInit headerOnlyImage = .error .keyError := by decide

/-- C9 (amended): a file-header parse failure is fatal (the not-a-database
ValueError), but construction is not raise-free on every image whose
header parses: an image without a catalog data page linked at offset
2 * page_size raises KeyError during construction. -/
theorem c9_construction_errors :
    (∀ db_data, ACCESSHEADER_parse db_data = .error .constructError →
      accessInit db_data = .error .notValidDb) ∧
    parse_file_header headerOnlyImage = .ok (3, 0x800) ∧
    accessInit headerOnlyImage = .error .keyError := by
  refine ⟨fun db_data h => ?_, by decide, by decide⟩
  simp only [accessInit, parse_file_header, h]
  rfl

/-- C9 witness: the header-failure direction at the empty image, and the
concrete header-parsing image that still raises. -/
theorem c9_construction_errors_witness :
    accessInit [] = .error .notValidDb ∧ accessInit headerOnlyImage = .error .keyError :=
  ⟨c9_construction_errors.1 [] (by decide), c9_construction_errors.2.2⟩

/-- C10: parsing is deterministic — the composed pipeline (construction
followed by parse_table) is a pure function of the image bytes and the
table name, so equal inputs give equal outputs. -/
theorem c10_determinism (d1 d2 : Bytes) (n1 n2 : String) (h1 : d1 = d2) (h2 : n1 = n2) :
    parseTableFromBytes d1 n1 = parseTableFromBytes d2 n2 := by
  subst h1; subst h2; rfl

/-- C10 witness: two runs on the same concrete image and name. -/
theorem c10_determinism_witness :
    parseTableFromBytes headerOnlyImage "T" = parseTableFromBytes headerOnlyImage "T" :=
  c10_determinism headerOnlyImage headerOnlyImage "T" "T" rfl rfl

/-- C1 counterexample: on a page whose first slot is deleted (0x8012) and
whose second slot is normal (offset 14), the claim predicts the second
record — the first-processed non-deleted slot — spans to the end of the
page, but the code bounds it by the deleted slot's low 12 bits (0x12), so
the emitted record is bytes [14, 18), not [14, 20). -/
theorem c1_counterexample :
    pageRecords 3 0x800 [] fixSlotPage [0x8012, 0x000E] 0 = .ok [[10, 20, 30, 40]] ∧
    [[10, 20, 30, 40]] ≠ [fixSlotPage.drop 14] := by decide

/-- Pushing a bind under an if-then-else over an error. -/
theorem ite_bind {C : Prop} [Decidable C] {α β : Type} (e : PyErr) (x : Except PyErr α)
    (k : α → Except PyErr β) :
    ((if C then Except.error e else x) >>= k) =
      if C then Except.error e else (x >>= k) := by
  split <;> rfl

/-- Binding after a map collapses into one bind. -/
theorem map_bind_eq {α β γ : Type} (f : α → β) (x : Except PyErr α)
    (k : β → Except PyErr γ) :
    (f <$> x) >>= k = x >>= fun a => k (f a) := by cases x <;> rfl

/-- C1 (amended): record-slot iteration processes the slots in order and
factors into a per-slot contribution and a cursor update: a deleted slot
(bit 15) contributes no row and its low 12 bits advance the cursor; an
overflow slot (bit 14) contributes the record resolved through its
overflow pointer when that record is nonempty, and also advances the
cursor to its low 12 bits; any other slot contributes its span — from the
slot offset to the cursor, or to the end of the page when the cursor is
unset or zero — when that span is nonempty, and the cursor becomes the
slot offset. -/
theorem c1_slot_iteration (v ps : Nat) (dp : List (Nat × Bytes)) (data : Bytes)
    (off last : Nat) (rest : List Nat) :
    pageRecords v ps dp data (off :: rest) last =
      (do
        let c ← slotContribution v ps dp data off last
        let rs ← pageRecords v ps dp data rest (nextCursor off last)
        pure (c ++ rs)) := by
  by_cases h15 : off.testBit 15
  · simp only [pageRecords, slotContribution, nextCursor, h15, if_true]
    cases h : pageRecords v ps dp data rest (off % 4096) <;> simp [h]
  · by_cases h14 : off.testBit 14
    · simp only [pageRecords, slotContribution, nextCursor, h15, h14, Bool.false_eq_true,
        if_false, if_true]
      rw [ite_bind]
      simp only [bind_assoc, pure_bind]
    · simp only [pageRecords, slotContribution, nextCursor, h15, h14, Bool.false_eq_true,
        if_false]
      cases h : pageRecords v ps dp data rest off <;> simp [h]

/-- C3: a fixed-length column whose column_id lies strictly beyond the null
bitmap is null (unknown-null for booleans), and a boolean whose column_id
indexes inside the bitmap takes the bit as its value; but at column_id
exactly equal to the bitmap's bit count the code's `>` guard admits the
index and `null_table[column_id]` raises IndexError, shown here on a
boolean column with column_id 8 over an eight-bit bitmap. -/
theorem c3_null_bitmap :
    (∀ v rec col nt st, col.column_id > nt.length → col.type = 1 →
      parse_fixed_length_data v rec col nt st = .ok (tAppend st col.col_name_str .none)) ∧
    (∀ v rec col nt st, (h : col.column_id < nt.length) → col.type = 1 →
      parse_fixed_length_data v rec col nt st =
        .ok (tAppend st col.col_name_str (.bool (nt.get ⟨col.column_id, h⟩)))) ∧
    parse_fixed_length_data 3 (List.replicate 20 0) fixBoolCol
      [true, true, false, false, false, false, false, false] [] = .error .indexError := by
  refine ⟨fun v rec col nt st h1 h2 => ?_, fun v rec col nt st h1 h2 => ?_, by decide⟩
  · simp only [parse_fixed_length_data, h1, h2, if_true, gt_iff_lt, if_pos]
    rfl
  · have hgt : ¬col.column_id > nt.length := by omega
    simp only [parse_fixed_length_data, hgt, h2, if_false, if_true, List.get?_eq_get h1]
    rfl

/-- C3 witness: the beyond-bitmap and in-bitmap cases at concrete inputs. -/
theorem c3_null_bitmap_witness :
    parse_fixed_length_data 3 [] fixBoolCol [] [] = .ok [("Flag", [.none])] ∧
    parse_fixed_length_data 3 [] fixBoolCol (List.replicate 9 true) [] =
      .ok [("Flag", [.bool true])] :=
  ⟨c3_null_bitmap.1 3 [] fixBoolCol [] [] (by decide) rfl,
   c3_null_bitmap.2.1 3 [] fixBoolCol (List.replicate 9 true) [] (by decide) rfl⟩

/-- splitAtZero always yields at least one (possibly empty) segment. -/
theorem splitAtZero_ne_nil : ∀ l : Bytes, splitAtZero l ≠ [] := by
  intro l
  induction l with
  | nil => simp [splitAtZero]
  | cons b rest ih =>
    cases b with
    | zero => simp [splitAtZero]
    | succ n =>
      simp only [splitAtZero]
      cases h : splitAtZero rest with
      | nil => simp
      | cons s ss => simp

/-- Prepending the empty partial segment changes nothing. -/
theorem prependFirst_nil (l : Bytes) : prependFirst [] (splitAtZero l) = splitAtZero l := by
  cases h : splitAtZero l with
  | nil => exact absurd h (splitAtZero_ne_nil l)
  | cons s ss => simp [prependFirst]

/-- decodeUncompressedText depends only on the selected slice. -/
theorem decodeUncompressedText_slice (data : Bytes) (s e v : Nat) :
    decodeUncompressedText data s e v =
      decodeUncompressedText ((data.take e).drop s) 0 ((data.take e).drop s).length v := by
  simp only [decodeUncompressedText, List.drop_zero, List.take_length]

/-- decodeTextSegment depends only on the selected slice, provided the end
index does not exceed the data (so the index gap equals the slice length). -/
theorem decodeTextSegment_slice (data : Bytes) (s e : Nat) (mode : Bool) (v : Nat)
    (hel : e ≤ data.length) :
    decodeTextSegment data s e mode v =
      decodeTextSegment ((data.take e).drop s) 0 ((data.take e).drop s).length mode v := by
  have hlen : ((data.take e).drop s).length = e - s := by
    simp [Nat.min_eq_left hel]
  unfold decodeTextSegment
  by_cases hse : e ≤ s
  · have h0 : ((data.take e).drop s).length ≤ 0 := by omega
    rw [if_pos hse, if_pos h0]
  · have h0 : ¬((data.take e).drop s).length ≤ 0 := by omega
    rw [if_neg hse, if_neg h0]
    refine if_congr Iff.rfl ?_ ?_
    · simp only [List.drop_zero, List.take_length]
    · simpa using decodeUncompressedText_slice data s e v

/-- The segment loop equals alternating-mode decoding of the NUL-split
remainder, with the partial segment scanned so far prepended. -/
theorem decodeTextLoop_split (v : Nat) (data : Bytes) :
    ∀ (rest : Bytes) (s e : Nat) (mode : Bool), s ≤ e → e ≤ data.length →
      data.drop e = rest →
      decodeTextLoop data v s e mode rest =
        decodeSegmentsAlternating v
          (prependFirst ((data.take e).drop s) (splitAtZero rest)) mode := by
  intro rest
  induction rest with
  | nil =>
    intro s e mode hse hel hdrop
    simp only [decodeTextLoop, splitAtZero, prependFirst, decodeSegmentsAlternating,
      List.append_nil]
    rw [decodeTextSegment_slice data s e mode v hel, String.append_empty]
  | cons b rest ih =>
    intro s e mode hse hel hdrop
    have hget : data[e]? = some b := by
      have h0 : (data.drop e)[0]? = some b := by rw [hdrop]; simp
      rwa [List.getElem?_drop, Nat.add_zero] at h0
    have helt : e < data.length := by
      have := congrArg List.length hdrop
      simp [List.length_drop] at this
      omega
    have hdrop' : data.drop (e + 1) = rest := by
      have h1 : data.drop (e + 1) = (data.drop e).drop 1 := by
        rw [List.drop_drop, Nat.add_comm]
      rw [h1, hdrop]; rfl
    have htake : data.take (e + 1) = data.take e ++ [b] := by
      rw [List.take_succ, hget]; rfl
    by_cases hb : b = 0
    · subst hb
      simp only [decodeTextLoop, if_pos rfl, splitAtZero]
      rw [ih (e + 1) (e + 1) (!mode) (Nat.le_refl _) helt hdrop']
      have hpre : (data.take (e + 1)).drop (e + 1) = [] := by
        apply List.drop_eq_nil_iff.mpr
        simp
      rw [hpre, prependFirst_nil]
      simp only [prependFirst, decodeSegmentsAlternating, List.append_nil]
      rw [decodeTextSegment_slice data s e mode v hel]
      simp
    · have hbs : ∃ n, b = n + 1 := ⟨b - 1, by omega⟩
      obtain ⟨n, rfl⟩ := hbs
      simp only [decodeTextLoop]
      rw [if_neg (by omega)]
      rw [ih s (e + 1) mode (by omega) helt hdrop']
      have hslice : (data.take (e + 1)).drop s = (data.take e).drop s ++ [n + 1] := by
        rw [htake]
        exact List.drop_append_of_le_length (by simp [Nat.min_eq_left hel]; omega)
      rw [hslice]
      simp only [splitAtZero]
      cases h : splitAtZero rest with
      | nil => exact absurd h (splitAtZero_ne_nil rest)
      | cons seg segs =>
        simp [prependFirst]

set_option maxRecDepth 4000

/-- C7 (amended): for Jet 4+ a payload beginning FF FE is decoded as
alternating compressed/uncompressed segments terminated by single NUL
bytes, the first segment compressed; the payload FF FE 48 69 (compressed
"Hi") decodes to "Hi"; the claim's example payload FF FE 48 00 69 00
instead decodes to "H�", because its 00 bytes are consumed as segment
terminators. -/
theorem c7_compressed_text :
    (∀ (version : Nat) (rest : Bytes), version ≠ 3 →
      decodeTextValue (0xFF :: 0xFE :: rest) version =
        decodeSegmentsAlternating version (splitAtZero rest) true) ∧
    decodeTextValue [0xFF, 0xFE, 0x48, 0x69] 4 = "Hi" ∧
    decodeTextValue [0xFF, 0xFE, 0x48, 0x00, 0x69, 0x00] 4 = "H�" := by
  refine ⟨fun version rest hv => ?_, by decide, by decide⟩
  have hcomp : (1 < (0xFF :: 0xFE :: rest : Bytes).length ∧
      (0xFF :: 0xFE :: rest : Bytes).take 2 = [0xFF, 0xFE]) := by
    constructor
    · simp
    · rfl
  simp only [decodeTextValue, if_neg hv, if_pos hcomp]
  have hdrop : (0xFF :: 0xFE :: rest : Bytes).drop 2 = rest := rfl
  rw [hdrop, decodeTextLoop_split version (0xFF :: 0xFE :: rest) rest 2 2 true (Nat.le_refl _)
    (by simp) hdrop]
  have hpre : (((0xFF :: 0xFE :: rest : Bytes).take 2).drop 2) = [] := rfl
  rw [hpre, prependFirst_nil]

/-- C7 witness: the framing equality instantiated at version 4 and the
example payload. -/
theorem c7_compressed_text_witness :
    decodeTextValue [0xFF, 0xFE, 0x48, 0x00, 0x69, 0x00] 4 =
      decodeSegmentsAlternating 4 (splitAtZero [0x48, 0x00, 0x69, 0x00]) true :=
  c7_compressed_text.1 4 [0x48, 0x00, 0x69, 0x00] (by decide)

/-- C7 counterexample: the claim's example payload decodes to "H�",
not "Hi". -/
theorem c7_counterexample :
    decodeTextValue [0xFF, 0xFE, 0x48, 0x00, 0x69, 0x00] 4 = "H�" ∧
    ("H�" : String) ≠ "Hi" := by
  refine ⟨by decide, by decide⟩

/-- _get_usage_map factors through its slot-resolution prefix followed by
the bitmap walk. -/
theorem get_usage_map_eq (version page_size : Nat) (data_pages : List (Nat × Bytes))
    (page_num row_num : Nat) :
    get_usage_map version page_size data_pages page_num row_num =
      (do
        let (sp, mip, buf) ← usageMapParts version page_size data_pages page_num row_num
        pure (usageLoop sp ((sp : Int) + mip) 0 buf)) := by
  simp only [get_usage_map, usageMapParts]
  cases odGet natEq (page_num * page_size) data_pages with
  | none => rfl
  | some b =>
    by_cases hr : row_num = 0 <;> simp [hr, bind_assoc, pure_bind]

/-- Membership in the inner bit loop, when every offset of the byte is
within the inline capacity. -/
theorem usageBits_mem (sp : Nat) (mip : Int) (bc b : Nat)
    (hin : (8 * (bc : Int) + 8) ≤ mip) :
    ∀ (r i : Nat), i + r = 8 → ∀ p,
      p ∈ usageBits sp ((sp : Int) + mip) bc b r i ↔
        ∃ j, i ≤ j ∧ j < 8 ∧ b.testBit j ∧ p = sp + (bc * 8 + j) := by
  intro r
  induction r with
  | zero =>
    intro i hi p
    simp only [usageBits, List.not_mem_nil, false_iff]
    rintro ⟨j, hj1, hj2, _, _⟩
    omega
  | succ r ih =>
    intro i hi p
    have hguard : ¬(((sp : Int) + ((bc * 8 + i : Nat) : Int) < (sp : Int)) ∨
        ((sp : Int) + ((bc * 8 + i : Nat) : Int) > (sp : Int) + mip)) := by
      push_cast
      omega
    by_cases hbit : b.testBit i
    · simp only [usageBits]
      rw [if_pos hbit, if_neg hguard]
      simp only [List.mem_cons]
      rw [ih (i + 1) (by omega) p]
      constructor
      · rintro (rfl | ⟨j, hj1, hj2, hj3, hj4⟩)
        · exact ⟨i, Nat.le_refl i, by omega, hbit, rfl⟩
        · exact ⟨j, by omega, hj2, hj3, hj4⟩
      · rintro ⟨j, hj1, hj2, hj3, hj4⟩
        by_cases hji : j = i
        · subst hji
          exact Or.inl hj4
        · exact Or.inr ⟨j, by omega, hj2, hj3, hj4⟩
    · simp only [usageBits]
      rw [if_neg hbit]
      rw [ih (i + 1) (by omega) p]
      constructor
      · rintro ⟨j, hj1, hj2, hj3, hj4⟩
        exact ⟨j, by omega, hj2, hj3, hj4⟩
      · rintro ⟨j, hj1, hj2, hj3, hj4⟩
        refine ⟨j, ?_, hj2, hj3, hj4⟩
        rcases Nat.eq_or_lt_of_le hj1 with h | h
        · subst h
          exact absurd hj3 hbit
        · omega

/-- Membership in the byte loop, when the whole buffer lies within the
inline capacity. -/
theorem usageLoop_mem (sp : Nat) (mip : Int) :
    ∀ (buf : Bytes) (bc : Nat), (8 * ((bc : Int) + buf.length)) ≤ mip → ∀ p,
      p ∈ usageLoop sp ((sp : Int) + mip) bc buf ↔
        ∃ k j, k < buf.length ∧ j < 8 ∧ ((buf.getD k 0).testBit j) ∧
          p = sp + ((bc + k) * 8 + j) := by
  intro buf
  induction buf with
  | nil =>
    intro bc h p
    simp [usageLoop]
  | cons b rest ih =>
    intro bc h p
    have hlen : ((b :: rest : Bytes).length : Int) = (rest.length : Int) + 1 := by
      push_cast [List.length_cons]
      ring
    have hrest := ih (bc + 1) (by rw [hlen] at h; omega) p
    have hbyte := usageBits_mem sp mip bc b (by rw [hlen] at h; omega) 8 0
      (by omega) p
    simp only [usageLoop, List.mem_append]
    rw [hrest]
    constructor
    · rintro (hfirst | ⟨k, j, hk, hj, hbit, hp⟩)
      · by_cases hb0 : b ≠ 0
        · rw [if_pos hb0] at hfirst
          obtain ⟨j, _, hj2, hj3, hj4⟩ := hbyte.mp hfirst
          exact ⟨0, j, by simp, hj2, by simpa using hj3, by omega⟩
        · rw [if_neg hb0] at hfirst
          exact absurd hfirst (List.not_mem_nil p)
      · exact ⟨k + 1, j, by simp; omega, hj, by simpa using hbit, by omega⟩
    · rintro ⟨k, j, hk, hj, hbit, hp⟩
      cases k with
      | zero =>
        left
        have hb0 : b ≠ 0 := by
          intro h0
          rw [List.getD_cons_zero, h0] at hbit
          simp [Nat.testBit] at hbit
        rw [if_pos hb0]
        refine hbyte.mpr ⟨j, Nat.zero_le j, hj, by simpa using hbit, by omega⟩
      | succ k =>
        right
        refine ⟨k, j, by simp at hk; omega, hj, by simpa using hbit, by omega⟩

/-- Bind on an error short-circuits. -/
theorem err_bind {α β : Type} (e : PyErr) (k : α → Except PyErr β) :
    (Except.error e >>= k) = Except.error e := rfl

/-- Bind on an ok value applies the continuation. -/
theorem ok_bind {α β : Type} (a : α) (k : α → Except PyErr β) :
    (Except.ok a >>= k) = k a := rfl

/-- Successful slot resolution yields a capacity and bitmap of the shape
`(row_end - row_start - 5) * 8` and `table_buffer[row_start+5 : row_end]`. -/
theorem usageMapParts_shape (version page_size : Nat) (dp : List (Nat × Bytes))
    (pn rn : Nat) (sp : Nat) (mip : Int) (buf : Bytes)
    (h : usageMapParts version page_size dp pn rn = .ok (sp, mip, buf)) :
    ∃ (tb : Bytes) (row_start row_end : Nat),
      mip = ((row_end : Int) - ((row_start + 5 : Nat) : Int)) * 8 ∧
      buf = (tb.take row_end).drop (row_start + 5) := by
  simp only [usageMapParts] at h
  cases hod : odGet natEq (pn * page_size) dp with
  | none => rw [hod] at h; simp [err_bind] at h
  | some tb =>
    rw [hod] at h
    simp only [pure_bind] at h
    cases hrs : parse_buffer_custom tb ((if version = 3 then 10 else 14) + 2 * rn) 2 with
    | error e => simp only [hrs, err_bind] at h; exact Except.noConfusion h
    | ok rs =>
      simp only [hrs, ok_bind] at h
      by_cases hr : rn = 0
      · rw [if_pos hr] at h
        cases hmt : parse_buffer_custom (tb.take page_size) (rs % 0x2000) 1 with
        | error e => simp only [hmt, err_bind] at h; exact Except.noConfusion h
        | ok mt =>
          simp only [hmt, ok_bind] at h
          cases hsp : parse_buffer_custom (tb.take page_size) (rs % 0x2000 + 1) 4 with
          | error e => simp only [hsp, err_bind] at h; exact Except.noConfusion h
          | ok spv =>
            simp only [hsp, ok_bind, pure_bind] at h
            have h2 := (Except.ok.injEq _ _).mp h
            simp only [Prod.mk.injEq] at h2
            exact ⟨tb, rs % 0x2000, page_size, h2.2.1.symm, h2.2.2.symm⟩
      · rw [if_neg hr] at h
        cases hre : parse_buffer_custom tb
            ((if version = 3 then 10 else 14) + 2 * (rn - 1)) 2 with
        | error e => simp only [hre, err_bind] at h; exact Except.noConfusion h
        | ok re =>
          simp only [hre, ok_bind, pure_bind] at h
          cases hmt : parse_buffer_custom (tb.take (re % 0x2000)) (rs % 0x2000) 1 with
          | error e => simp only [hmt, err_bind] at h; exact Except.noConfusion h
          | ok mt =>
            simp only [hmt, ok_bind] at h
            cases hsp : parse_buffer_custom (tb.take (re % 0x2000)) (rs % 0x2000 + 1) 4 with
            | error e => simp only [hsp, err_bind] at h; exact Except.noConfusion h
            | ok spv =>
              simp only [hsp, ok_bind, pure_bind] at h
              have h2 := (Except.ok.injEq _ _).mp h
              simp only [Prod.mk.injEq] at h2
              exact ⟨tb, rs % 0x2000, re % 0x2000, h2.2.1.symm, h2.2.2.symm⟩

/-- A truncated-then-dropped slice either is empty or fits in the declared
capacity. -/
theorem slice_capacity (tb : Bytes) (row_end rs5 : Nat) :
    ((tb.take row_end).drop rs5) = [] ∨
      8 * ((((tb.take row_end).drop rs5).length : Int)) ≤ ((row_end : Int) - rs5) * 8 := by
  by_cases hnil : (tb.take row_end).drop rs5 = []
  · exact Or.inl hnil
  · right
    have hlen : ((tb.take row_end).drop rs5).length = min row_end tb.length - rs5 := by
      simp
    have hpos : 0 < ((tb.take row_end).drop rs5).length := List.length_pos.mpr hnil
    rw [hlen] at hpos ⊢
    omega

/-- C4: a successfully read inline usage map factors through slot
resolution into a start page, capacity and bitmap; the emitted pages are
exactly start_page + 8*byteIndex + bit for the set (LSB-first) bits, and
every emitted page lies in [start_page, start_page + capacity). -/
theorem c4_usage_map (version page_size : Nat) (dp : List (Nat × Bytes)) (pn rn : Nat)
    (pages : List Nat)
    (h : get_usage_map version page_size dp pn rn = .ok pages) :
    ∃ sp mip buf, usageMapParts version page_size dp pn rn = .ok (sp, mip, buf) ∧
      (∀ p, p ∈ pages ↔ ∃ k j, k < buf.length ∧ j < 8 ∧ (buf.getD k 0).testBit j ∧
        p = sp + (k * 8 + j)) ∧
      (∀ p ∈ pages, sp ≤ p ∧ (p : Int) < (sp : Int) + mip) := by
  rw [get_usage_map_eq] at h
  cases hparts : usageMapParts version page_size dp pn rn with
  | error e => rw [hparts, err_bind] at h; simp at h
  | ok parts =>
    obtain ⟨sp, mip, buf⟩ := parts
    rw [hparts, ok_bind] at h
    have hpages : pages = usageLoop sp ((sp : Int) + mip) 0 buf :=
      ((Except.ok.injEq _ _).mp h).symm
    obtain ⟨tb, row_start, row_end, hmip, hbuf⟩ :=
      usageMapParts_shape version page_size dp pn rn sp mip buf hparts
    subst hpages
    refine ⟨sp, mip, buf, rfl, ?_, ?_⟩
    · intro p
      rcases slice_capacity tb row_end (row_start + 5) with hnil | hcap
      · have hb : buf = [] := hbuf.trans hnil
        subst hb
        simp [usageLoop]
      · have hcap' : (8 * ((0 : Int) + (buf.length : Int))) ≤ mip := by
          rw [hmip, hbuf]
          push_cast at hcap ⊢
          omega
        simpa using usageLoop_mem sp mip buf 0 hcap' p
    · intro p hp
      rcases slice_capacity tb row_end (row_start + 5) with hnil | hcap
      · have hb : buf = [] := hbuf.trans hnil
        subst hb
        simp [usageLoop] at hp
      · have hcap' : (8 * ((0 : Int) + (buf.length : Int))) ≤ mip := by
          rw [hmip, hbuf]
          push_cast at hcap ⊢
          omega
        obtain ⟨k, j, hk, hj, hbit, hpe⟩ := (usageLoop_mem sp mip buf 0 hcap' p).mp hp
        subst hpe
        refine ⟨by omega, ?_⟩
        push_cast at hcap' ⊢
        omega

/-- C4 witness: the inline map on the fixture page emits exactly page 3
(bitmap byte 0x08 at byteIndex 0, bit 3), within the declared capacity. -/
theorem c4_usage_map_witness :
    ∃ sp mip buf, usageMapParts 3 0x800 [(0x800, fixMapPage)] 1 0 = .ok (sp, mip, buf) ∧
      (∀ p, p ∈ [3] ↔ ∃ k j, k < buf.length ∧ j < 8 ∧ (buf.getD k 0).testBit j ∧
        p = sp + (k * 8 + j)) ∧
      (∀ p ∈ [3], sp ≤ p ∧ (p : Int) < (sp : Int) + mip) :=
  c4_usage_map 3 0x800 [(0x800, fixMapPage)] 1 0 [3] (by decide)

/-- Folding digit accumulation from an arbitrary accumulator. -/
theorem dv_shift : ∀ (l : List Char) (a : Nat),
    l.foldl (fun a c => 10 * a + charToDigit c) a = a * 10 ^ l.length + digitsVal l := by
  intro l
  induction l with
  | nil => intro a; simp [digitsVal]
  | cons c rest ih =>
    intro a
    simp only [List.foldl_cons, digitsVal, List.length_cons]
    rw [ih (10 * a + charToDigit c), ih (10 * 0 + charToDigit c)]
    ring

/-- Digit value of an appended list. -/
theorem dv_append (a b : List Char) :
    digitsVal (a ++ b) = digitsVal a * 10 ^ b.length + digitsVal b := by
  simp only [digitsVal, List.foldl_append]
  rw [dv_shift b (List.foldl (fun a c => 10 * a + charToDigit c) 0 a)]
  rfl

/-- A run of zeros has digit value zero. -/
theorem dv_replicate_zero (n : Nat) : digitsVal (List.replicate n '0') = 0 := by
  induction n with
  | zero => rfl
  | succ n ih =>
    have : List.replicate (n + 1) '0' = List.replicate n '0' ++ ['0'] := by
      rw [List.replicate_succ' ]
    rw [this, dv_append, ih]
    rfl

/-- charToDigit inverts digitToChar on digits. -/
theorem charToDigit_digitToChar (d : Nat) (hd : d < 10) :
    charToDigit (digitToChar d) = d := by
  interval_cases d <;> decide

/-- digitToChar yields digit characters. -/
theorem isDigitChar_digitToChar (d : Nat) (hd : d < 10) :
    isDigitChar (digitToChar d) = true := by
  interval_cases d <;> decide

/-- The fuel-bounded digit expansion is correct and yields digits. -/
theorem natDigitsF_spec : ∀ (f n : Nat), n ≤ f →
    digitsVal ((natDigitsF f n).map digitToChar) = n ∧
      ∀ d ∈ natDigitsF f n, d < 10 := by
  intro f
  induction f with
  | zero =>
    intro n hn
    have : n = 0 := by omega
    subst this
    exact ⟨rfl, by simp [natDigitsF]⟩
  | succ f ih =>
    intro n hn
    cases n with
    | zero => exact ⟨rfl, by simp [natDigitsF]⟩
    | succ m =>
      have hrec := ih ((m + 1) / 10) (by omega)
      simp only [natDigitsF, List.map_append, List.map_cons, List.map_nil]
      constructor
      · rw [dv_append, hrec.1]
        have : digitsVal [digitToChar ((m + 1) % 10)] = (m + 1) % 10 := by
          simp only [digitsVal, List.foldl_cons, List.foldl_nil]
          rw [charToDigit_digitToChar _ (by omega)]
          omega
        rw [this]
        simp only [List.length_cons, List.length_nil, pow_one, pow_zero]
        omega
      · intro d hd
        rcases List.mem_append.mp hd with h | h
        · exact hrec.2 d h
        · simp at h
          omega

/-- Python str(n): correct value, all digit characters, nonempty. -/
theorem pyNatChars_spec (n : Nat) :
    digitsVal (pyNatChars n) = n ∧ (pyNatChars n).all isDigitChar = true ∧
      pyNatChars n ≠ [] := by
  by_cases h0 : n = 0
  · subst h0
    refine ⟨rfl, by decide, by decide⟩
  · have hs := natDigitsF_spec n n (Nat.le_refl n)
    refine ⟨?_, ?_, ?_⟩
    · simp only [pyNatChars, pyNatDigits, if_neg h0]
      exact hs.1
    · simp only [pyNatChars, pyNatDigits, if_neg h0, List.all_eq_true]
      intro c hc
      obtain ⟨d, hd, rfl⟩ := List.mem_map.mp hc
      exact isDigitChar_digitToChar d (hs.2 d hd)
    · simp only [pyNatChars, pyNatDigits, if_neg h0]
      intro hc
      have := hs.1
      rw [hc] at this
      simp [digitsVal] at this
      exact h0 this.symm

/-- Strings are their character lists. -/
theorem toList_mk (l : List Char) : (String.mk l).toList = l := rfl

/-- The sign match on a string not starting with a minus. -/
theorem parseDecimalQ_cons (a : Char) (r : List Char) (ha : ¬a = '-') :
    parseDecimalQ (String.mk (a :: r)) = parseDecimalTail 1 (a :: r) := by
  simp only [parseDecimalQ, toList_mk]
  split
  · next r' heq =>
      rw [List.cons.injEq] at heq
      exact absurd heq.1 ha
  · rfl

/-- The sign match on a string starting with a minus. -/
theorem parseDecimalQ_neg (r : List Char) :
    parseDecimalQ (String.mk ('-' :: r)) = parseDecimalTail (-1) r := rfl

/-- takeWhile and drop on an all-digit prefix followed by a non-digit
remainder. -/
theorem takeWhile_digits_append (A B : List Char) (hA : ∀ c ∈ A, isDigitChar c = true)
    (hB : ∀ c f, B = c :: f → isDigitChar c = false) :
    (A ++ B).takeWhile isDigitChar = A ∧ (A ++ B).drop A.length = B := by
  refine ⟨?_, List.drop_left A B⟩
  induction A with
  | nil =>
    cases hBc : B with
    | nil => rfl
    | cons c f =>
      simp only [List.nil_append, List.takeWhile_cons, hB c f hBc]
      rfl
  | cons a A ih =>
    simp only [List.cons_append, List.takeWhile_cons, hA a (List.mem_cons_self a A), if_true]
    rw [ih (fun c hc => hA c (List.mem_cons_of_mem a hc))]

/-- The decimal parser on a digit string with an optional dot-fraction
tail. -/
theorem parseDecimalTail_eval (sgn : ℚ) (A B : List Char)
    (hA : ∀ c ∈ A, isDigitChar c = true) (hAne : A ≠ [])
    (hB : B = [] ∨ ∃ f, B = '.' :: f ∧ f.all isDigitChar = true) :
    parseDecimalTail sgn (A ++ B) =
      some (sgn * ((digitsVal A : ℚ) +
        (digitsVal (B.drop 1) : ℚ) / (10 : ℚ) ^ (B.drop 1).length)) := by
  have hstop : ∀ c f, B = c :: f → isDigitChar c = false := by
    rintro c f hcf
    rcases hB with rfl | ⟨f', hf', _⟩
    · exact absurd hcf (by simp)
    · rw [hf'] at hcf
      rw [List.cons.injEq] at hcf
      rw [← hcf.1]
      decide
  obtain ⟨htw, hdr⟩ := takeWhile_digits_append A B hA hstop
  simp only [parseDecimalTail, htw, hdr]
  have hAe : A.isEmpty = false := by
    cases A with
    | nil => exact absurd rfl hAne
    | cons a A' => rfl
  rcases hB with rfl | ⟨f, rfl, hf⟩
  · simp only [hAe, Bool.false_eq_true, if_false]
    norm_num
    exact Or.inl rfl
  · simp only [hAe, Bool.false_eq_true]
    rw [if_pos ⟨hf, by simp⟩]
    simp

/-- C6 general part: every 17-byte decimal decodes to a string parsing
back to the signed scaled rational. -/
theorem c6_general (bytes_num : Bytes) (scale : Nat) (h : bytes_num.length = 17) :
    ∃ s, numeric_to_string bytes_num scale = .ok s ∧
      parseDecimalQ s =
        some ((if bytes_num.headD 0 ≠ 0 then (-1 : ℚ) else 1) *
          ((leNat (pySlice bytes_num 1 5) * 2 ^ 96 + leNat (pySlice bytes_num 5 9) * 2 ^ 64 +
            leNat (pySlice bytes_num 9 13) * 2 ^ 32 +
            leNat (pySlice bytes_num 13 17) : Nat) : ℚ) / (10 : ℚ) ^ scale) := by
  have hg : ¬(bytes_num.length ≠ 17) := by omega
  simp only [numeric_to_string, if_neg hg]
  set N : Nat := leNat (pySlice bytes_num 1 5) * 2 ^ 96 + leNat (pySlice bytes_num 5 9) * 2 ^ 64 +
    leNat (pySlice bytes_num 9 13) * 2 ^ 32 + leNat (pySlice bytes_num 13 17) with hN
  set s0 : List Char := pyNatChars N with hs0
  obtain ⟨hval, hdig, hne⟩ := pyNatChars_spec N
  have hdigm : ∀ c ∈ s0, isDigitChar c = true := by
    intro c hc
    exact List.all_eq_true.mp hdig c hc
  have h10 : (10 : ℚ) ^ scale ≠ 0 := pow_ne_zero _ (by norm_num)
  by_cases hcase : scale < s0.length
  · -- dot inserted inside the digits
    rw [if_pos hcase]
    have hlenX : (s0.take (s0.length - scale) ++ ['.'] ++ s0.drop (s0.length - scale)).length =
        s0.length + 1 := by
      simp
      omega
    have hcond : ¬((s0.take (s0.length - scale) ++ ['.'] ++
        s0.drop (s0.length - scale)).length ≤ scale) := by
      rw [hlenX]
      omega
    rw [if_neg hcond]
    refine ⟨_, rfl, ?_⟩
    set A : List Char := s0.take (s0.length - scale) with hA
    set F : List Char := s0.drop (s0.length - scale) with hF
    have hAB : A ++ ['.'] ++ F = A ++ ('.' :: F) := by
      rw [List.append_assoc]
      rfl
    have hAne : A ≠ [] := by
      rw [hA]
      intro hc
      have := congrArg List.length hc
      simp at this
      omega
    have hAdig : ∀ c ∈ A, isDigitChar c = true := fun c hc =>
      hdigm c (List.mem_of_mem_take hc)
    have hFdig : F.all isDigitChar = true := by
      rw [List.all_eq_true]
      intro c hc
      exact hdigm c (List.mem_of_mem_drop hc)
    have hFlen : F.length = scale := by
      rw [hF]
      simp
      omega
    have hsum : digitsVal A * 10 ^ scale + digitsVal F = N := by
      rw [← hFlen, ← dv_append, hA, hF, List.take_append_drop]
      exact hval
    have hvalq : ((digitsVal A : ℚ) + (digitsVal F : ℚ) / (10 : ℚ) ^ scale) =
        (N : ℚ) / (10 : ℚ) ^ scale := by
      field_simp
      exact_mod_cast congrArg (Nat.cast : Nat → ℚ) hsum
    by_cases hneg : bytes_num.headD 0 ≠ 0
    · rw [if_pos hneg, if_pos hneg]
      have : (['-'] ++ (A ++ ['.'] ++ F)) = '-' :: (A ++ ('.' :: F)) := by
        rw [hAB]
        rfl
      rw [this, parseDecimalQ_neg,
        parseDecimalTail_eval (-1) A ('.' :: F) hAdig hAne (Or.inr ⟨F, rfl, hFdig⟩)]
      rw [Option.some.injEq]
      simp only [List.drop_one, List.tail_cons, hFlen]
      rw [hvalq]
      ring
    · rw [if_neg hneg, if_neg hneg]
      obtain ⟨a, A', hAa⟩ : ∃ a A', A = a :: A' := by
        cases hAc : A with
        | nil => exact absurd hAc hAne
        | cons x xs => exact ⟨x, xs, rfl⟩
      have hadig : isDigitChar a = true := hAdig a (by rw [hAa]; exact List.mem_cons_self a A')
      have hanm : ¬a = '-' := by
        intro hc
        rw [hc] at hadig
        exact absurd hadig (by decide)
      have hshape : ([] ++ (A ++ ['.'] ++ F) : List Char) = a :: (A' ++ ('.' :: F)) := by
        rw [List.nil_append, hAB, hAa]
        rfl
      rw [hshape, parseDecimalQ_cons a _ hanm]
      have hback : (a :: (A' ++ ('.' :: F)) : List Char) = A ++ ('.' :: F) := by
        rw [hAa]
        rfl
      rw [hback, parseDecimalTail_eval 1 A ('.' :: F) hAdig hAne (Or.inr ⟨F, rfl, hFdig⟩)]
      rw [Option.some.injEq]
      simp only [List.drop_one, List.tail_cons, hFlen]
      rw [hvalq]
      ring
  · -- leading-zero padding
    rw [if_neg hcase]
    have hd1 : 0 < s0.length := List.length_pos.mpr hne
    have hds : s0.length ≤ scale := by omega
    have hscale : 0 < scale := by omega
    rw [if_pos hds]
    refine ⟨_, rfl, ?_⟩
    have hlastK : lastK scale (List.replicate scale '0' ++ s0) =
        List.replicate (scale - s0.length) '0' ++ s0 := by
      rw [lastK, pySliceFrom, pyBound, if_pos (by omega)]
      have hb : (((List.replicate scale '0' ++ s0 : List Char).length : Int) +
          -(scale : Int)).toNat = s0.length := by
        simp
      rw [hb, List.drop_append_of_le_length (by simp; omega), List.drop_replicate]
    rw [hlastK]
    set R : List Char := List.replicate (scale - s0.length) '0' ++ s0 with hR
    have hRdig : R.all isDigitChar = true := by
      rw [List.all_eq_true]
      intro c hc
      rcases List.mem_append.mp hc with hc | hc
      · rw [List.eq_of_mem_replicate hc]
        decide
      · exact hdigm c hc
    have hRlen : R.length = scale := by
      rw [hR]
      simp
      omega
    have hRval : digitsVal R = N := by
      rw [hR, dv_append, dv_replicate_zero]
      simpa using hval
    have hvalq : ((digitsVal ['0'] : ℚ) + (digitsVal R : ℚ) / (10 : ℚ) ^ scale) =
        (N : ℚ) / (10 : ℚ) ^ scale := by
      have hz : digitsVal ['0'] = 0 := by decide
      rw [hz, hRval]
      norm_num
    by_cases hneg : bytes_num.headD 0 ≠ 0
    · rw [if_pos hneg, if_pos hneg]
      have hshape : (['-'] ++ ('0' :: '.' :: R) : List Char) = '-' :: (['0'] ++ ('.' :: R)) := rfl
      rw [hshape, parseDecimalQ_neg,
        parseDecimalTail_eval (-1) ['0'] ('.' :: R) (by intro c hc; simp at hc; rw [hc]; decide)
          (by simp) (Or.inr ⟨R, rfl, hRdig⟩)]
      rw [Option.some.injEq]
      simp only [List.drop_one, List.tail_cons, hRlen]
      rw [hvalq]
      ring
    · rw [if_neg hneg, if_neg hneg]
      have hshape : ([] ++ ('0' :: '.' :: R) : List Char) = '0' :: (['.'] ++ R) := rfl
      rw [hshape, parseDecimalQ_cons '0' _ (by decide)]
      have hback : ('0' :: (['.'] ++ R) : List Char) = ['0'] ++ ('.' :: R) := rfl
      rw [hback,
        parseDecimalTail_eval 1 ['0'] ('.' :: R) (by intro c hc; simp at hc; rw [hc]; decide)
          (by simp) (Or.inr ⟨R, rfl, hRdig⟩)]
      rw [Option.some.injEq]
      simp only [List.drop_one, List.tail_cons, hRlen]
      rw [hvalq]
      ring

/-- C6: every 17-byte decimal input decodes to a string that parses back
to the exact rational (sign ? -1 : 1) * N / 10 ^ scale, where N is the
128-bit integer built from the four little-endian 32-bit limbs with the
first limb most significant; in particular sign 0x00 with integer
149804168 decodes to "149.804168" at scale 6 and to "0.0149804168" at
scale 10. -/
theorem c6_numeric_roundtrip :
    (∀ (bytes_num : Bytes) (scale : Nat), bytes_num.length = 17 →
      ∃ s, numeric_to_string bytes_num scale = .ok s ∧
        parseDecimalQ s =
          some ((if bytes_num.headD 0 ≠ 0 then (-1 : ℚ) else 1) *
            ((leNat (pySlice bytes_num 1 5) * 2 ^ 96 + leNat (pySlice bytes_num 5 9) * 2 ^ 64 +
              leNat (pySlice bytes_num 9 13) * 2 ^ 32 +
              leNat (pySlice bytes_num 13 17) : Nat) : ℚ) / (10 : ℚ) ^ scale)) ∧
    numeric_to_string [0, 0, 0, 0, 0, 0, 0, 0, 0, 0, 0, 0, 0, 136, 212, 237, 8] 6 = .ok "149.804168" ∧
    numeric_to_string [0, 0, 0, 0, 0, 0, 0, 0, 0, 0, 0, 0, 0, 136, 212, 237, 8] 10 = .ok "0.0149804168" :=
  ⟨c6_general, by decide, by decide⟩

/-- C6 witness: the round-trip instantiated at the example limbs and
scale 6. -/
theorem c6_numeric_roundtrip_witness :
    ∃ s, numeric_to_string [0, 0, 0, 0, 0, 0, 0, 0, 0, 0, 0, 0, 0, 136, 212, 237, 8] 6 = .ok s ∧
      parseDecimalQ s =
        some ((if ([0, 0, 0, 0, 0, 0, 0, 0, 0, 0, 0, 0, 0, 136, 212, 237, 8] : Bytes).headD 0 ≠ 0 then (-1 : ℚ) else 1) *
          ((leNat (pySlice ([0, 0, 0, 0, 0, 0, 0, 0, 0, 0, 0, 0, 0, 136, 212, 237, 8] : Bytes) 1 5) * 2 ^ 96 +
            leNat (pySlice ([0, 0, 0, 0, 0, 0, 0, 0, 0, 0, 0, 0, 0, 136, 212, 237, 8] : Bytes) 5 9) * 2 ^ 64 +
            leNat (pySlice ([0, 0, 0, 0, 0, 0, 0, 0, 0, 0, 0, 0, 0, 136, 212, 237, 8] : Bytes) 9 13) * 2 ^ 32 +
            leNat (pySlice ([0, 0, 0, 0, 0, 0, 0, 0, 0, 0, 0, 0, 0, 136, 212, 237, 8] : Bytes) 13 17) : Nat) : ℚ) / (10 : ℚ) ^ 6) :=
  c6_numeric_roundtrip.1 [0, 0, 0, 0, 0, 0, 0, 0, 0, 0, 0, 0, 0, 136, 212, 237, 8] 6 (by decide)

/-- Each fixed-length column parse returns the table unchanged or with
exactly one value appended to that column. -/
theorem pfl_append (v : Nat) (rec : Bytes) (col : ColumnS) (nt : List Bool)
    (st st' : ParsedTable) (h : parse_fixed_length_data v rec col nt st = .ok st') :
    st' = st ∨ ∃ val, st' = tAppend st col.col_name_str val := by
  by_cases h1 : col.column_id > nt.length
  · by_cases h2 : col.type = 1
    · simp only [parse_fixed_length_data, if_pos h1, if_pos h2, pure_bind] at h
      exact Or.inr ⟨.none, ((Except.ok.injEq _ _).mp h).symm⟩
    · simp only [parse_fixed_length_data, if_pos h1, if_neg h2, pure_bind] at h
      by_cases h3 : col.fixed_offset > rec.length
      · rw [if_pos h3] at h
        exact Or.inl ((Except.ok.injEq _ _).mp h).symm
      · rw [if_neg h3] at h
        cases hp : parse_type col.type (rec.drop col.fixed_offset) Option.none v
            (match col.extra_props with | some [] => Option.none | p => p) with
        | error e =>
          rw [hp, err_bind] at h
          exact Except.noConfusion h
        | ok parsed =>
          rw [hp, ok_bind] at h
          rw [if_pos (by decide : (some false ≠ some true))] at h
          exact Or.inr ⟨.none, ((Except.ok.injEq _ _).mp h).symm⟩
  · cases hg : nt.get? col.column_id with
    | none =>
      simp only [parse_fixed_length_data, if_neg h1, hg, err_bind] at h
      exact Except.noConfusion h
    | some b =>
      simp only [parse_fixed_length_data, if_neg h1, hg, pure_bind] at h
      by_cases h2 : col.type = 1
      · rw [if_pos h2] at h
        exact Or.inr ⟨.bool b, ((Except.ok.injEq _ _).mp h).symm⟩
      · rw [if_neg h2] at h
        by_cases h3 : col.fixed_offset > rec.length
        · rw [if_pos h3] at h
          exact Or.inl ((Except.ok.injEq _ _).mp h).symm
        · rw [if_neg h3] at h
          cases hp : parse_type col.type (rec.drop col.fixed_offset) Option.none v
              (match col.extra_props with | some [] => Option.none | p => p) with
          | error e =>
            rw [hp, err_bind] at h
            exact Except.noConfusion h
          | ok parsed =>
            rw [hp, ok_bind] at h
            by_cases hb : (some b ≠ some true)
            · rw [if_pos hb] at h
              exact Or.inr ⟨.none, ((Except.ok.injEq _ _).mp h).symm⟩
            · rw [if_neg hb] at h
              exact Or.inr ⟨parsed, ((Except.ok.injEq _ _).mp h).symm⟩

/-- A non-boolean fixed-length column whose offset exceeds the record is
skipped entirely: no value is appended for this record. -/
theorem pfl_skip (v : Nat) (rec : Bytes) (col : ColumnS) (nt : List Bool)
    (st : ParsedTable) (h1 : col.column_id ≠ nt.length) (h2 : col.type ≠ 1)
    (h3 : col.fixed_offset > rec.length) :
    parse_fixed_length_data v rec col nt st = .ok st := by
  by_cases hgt : col.column_id > nt.length
  · simp only [parse_fixed_length_data, if_pos hgt, if_neg h2, pure_bind, if_pos h3]
    rfl
  · have hlt : col.column_id < nt.length := by omega
    have hg : nt.get? col.column_id = some (nt.get ⟨col.column_id, hlt⟩) :=
      List.get?_eq_get hlt
    simp only [parse_fixed_length_data, if_neg hgt, hg, pure_bind, if_neg h2, if_pos h3]
    rfl

/-- C2 (amended): column value-sequences are not always parallel.  Each
fixed-length column parse appends at most one value per record (so columns
stay parallel only when every column appends); a non-boolean fixed-length
column whose offset exceeds the record is skipped, appending nothing while
other columns advance.  On the fixture table "T" column "A" receives one
value while column "B", whose offset 0x7F8 exceeds the 50-byte record, ends
empty. -/
theorem c2_column_lengths :
    (∀ (v : Nat) (rec : Bytes) (col : ColumnS) (nt : List Bool) (st st' : ParsedTable),
      parse_fixed_length_data v rec col nt st = .ok st' →
      st' = st ∨ ∃ val, st' = tAppend st col.col_name_str val) ∧
    (∀ (v : Nat) (rec : Bytes) (col : ColumnS) (nt : List Bool) (st : ParsedTable),
      col.column_id ≠ nt.length → col.type ≠ 1 → col.fixed_offset > rec.length →
      parse_fixed_length_data v rec col nt st = .ok st) ∧
    parse_table fixDb (.str "T") = .ok [("A", [.int 42]), ("B", [])] ∧
    ([PyValue.int 42] : List PyValue).length ≠ ([] : List PyValue).length :=
  ⟨pfl_append, pfl_skip, by decide, by decide⟩

/-- C2 witness: the at-most-one and skip facts at concrete inputs. -/
theorem c2_column_lengths_witness :
    ([("Flag", [PyValue.none])] = ([] : ParsedTable) ∨
      ∃ val, [("Flag", [PyValue.none])] = tAppend [] fixBoolCol.col_name_str val) ∧
    parse_fixed_length_data 3 []
      { fixBoolCol with type := 3, fixed_offset := 5 } [] [] = .ok [] :=
  ⟨c2_column_lengths.1 3 [] fixBoolCol [] [] [("Flag", [PyValue.none])] (by decide),
   c2_column_lengths.2.1 3 [] { fixBoolCol with type := 3, fixed_offset := 5 } [] []
     (by decide) (by decide) (by decide)⟩

/-- C2 counterexample: the parsed fixture table has columns of unequal
length — "A" holds one value, "B" none. -/
theorem c2_counterexample :
    parse_table fixDb (.str "T") = .ok [("A", [.int 42]), ("B", [])] ∧
    ¬(∀ p ∈ [("A", [PyValue.int 42]), ("B", ([] : List PyValue))],
        ∀ q ∈ [("A", [PyValue.int 42]), ("B", ([] : List PyValue))],
        (p.2 : List PyValue).length = q.2.length) := by
  refine ⟨by decide, by decide⟩
